import Mathlib

/-!
Shallow embedding of the JobGPT `python_scraper` run-orchestration and
reconciliation engine (files `scraper/deduplication.py`, `scraper/job_scraper.py`,
`scraper/metadata.py`, `scraper/pipeline.py`, `scraper/models.py`,
`scraper/api.py`), together with theorems settling the frozen claims about it.

Modelling conventions:
- Python strings are Lean `String`s restricted to their ASCII behaviour
  (`str.lower` is `Char.toLower` per character, `\w` is `[A-Za-z0-9_]`,
  `\s` is ASCII whitespace).
- Python `None`-able values are `Option`s; Python truthiness on strings
  (`None` and `""` are falsy) is modelled explicitly.
- The PostgreSQL database is explicit state: lists of rows.  Each SQL
  statement issued through asyncpg's pool runs in its own implicit
  transaction (autocommit), so a statement is one atomic step and any
  row locks it takes are released when the statement completes.
- Wall-clock values (`NOW()`) are `Nat` parameters threaded in where the
  column matters (`started_at` ordering); `updated_at`/`finished_at`
  bookkeeping columns, which no claim mentions, are omitted.
-/

namespace JobGPT

/-! ## String helpers (Python semantics) -/

/-- Python `str` truthiness: `None` and `""` are falsy. -/
def pyTruthy : Option String → Bool
  | none => false
  | some s => !(s == "")

/-- Python `a or b` on optional strings: keep `a` when truthy, else `b`. -/
def pyOr (a b : Option String) : Option String :=
  if pyTruthy a then a else b

/-- Membership of `pat` as a prefix of `l` (Python `str.startswith` on char lists). -/
def prefixAt : List Char → List Char → Bool
  | [], _ => true
  | _ :: _, [] => false
  | a :: as, b :: bs => a == b && prefixAt as bs

/-- Membership of `pat` as a contiguous substring of `l`. -/
def subIn (pat : List Char) : List Char → Bool
  | [] => prefixAt pat []
  | c :: rest => prefixAt pat (c :: rest) || subIn pat rest

/-- Python `pat in s` for strings: contiguous-substring containment. -/
def strIn (pat s : String) : Bool := subIn pat.toList s.toList

/-- Python `str.lower` (ASCII). -/
def pyLower (s : String) : String := ⟨s.toList.map Char.toLower⟩

/-- A character matched by Python's regex `\w` (ASCII): alphanumeric or underscore. -/
def isPyWord (c : Char) : Bool := c.isAlphanum || c == '_'

/-- A character matched by Python's regex `\s` (ASCII). -/
def isPySpace (c : Char) : Bool :=
  c == ' ' || c == '\t' || c == '\n' || c == '\r' || c == '\x0b' || c == '\x0c'

/-- Drop leading and trailing whitespace from a character list. -/
def stripChars (l : List Char) : List Char :=
  ((l.dropWhile isPySpace).reverse.dropWhile isPySpace).reverse

/-- Python `str.strip()`: drop leading and trailing whitespace. -/
def pyStrip (s : String) : String :=
  ⟨stripChars s.toList⟩

/-! ## `scraper/deduplication.py` -/

/-- `normalize` (deduplication.py): `re.sub(r"[^\w\s]", "", text.lower()).strip()` —
lower-case, delete every character that is neither `\w` nor `\s`, then strip. -/
def normalize (text : String) : String :=
  pyStrip ⟨(pyLower text).toList.filter (fun c => isPyWord c || isPySpace c)⟩

/-- The spec's wording of normalization ("strips all characters that are not
alphanumeric or whitespace"), for comparison with `normalize` from the source:
lower-case, keep only alphanumeric-or-whitespace characters, then strip. -/
def spec_normalize (text : String) : String :=
  pyStrip ⟨(pyLower text).toList.filter (fun c => c.isAlphanum || isPySpace c)⟩

/-- The fields of a scraped job (models.py `ScrapedJob`).  `application_url`
is an `Option` because the Python fallback chains can in principle leave a
`None` in the field; the claims about nullability are stated against this. -/
structure ScrapedJob where
  title : String
  company : String
  company_id : String
  location : String
  description : String
  requirements : List String
  experience_level : String
  application_url : Option String
deriving DecidableEq, Repr

/-- `job_key` (deduplication.py): pipe-joined normalized title/company/location. -/
def job_key (job : ScrapedJob) : String :=
  normalize job.title ++ "|" ++ normalize job.company ++ "|" ++ normalize job.location

/-- The spec's wording of the identity key, built from `spec_normalize`. -/
def spec_job_key (job : ScrapedJob) : String :=
  spec_normalize job.title ++ "|" ++ spec_normalize job.company ++ "|" ++ spec_normalize job.location

/-- Loop of `deduplicate` (deduplication.py) with the `seen` set explicit. -/
def dedupAux (seen : List String) : List ScrapedJob → List ScrapedJob
  | [] => []
  | j :: rest =>
    if job_key j ∈ seen then dedupAux seen rest
    else j :: dedupAux (job_key j :: seen) rest

/-- `deduplicate` (deduplication.py): keep the first job for each identity key. -/
def deduplicate (jobs : List ScrapedJob) : List ScrapedJob := dedupAux [] jobs

/-! ## `scraper/job_scraper.py`: experience-level classification -/

/-- `_determine_level` (job_scraper.py): first config-mapping key found as a
substring of the lower-cased `title + " " + desc` wins; else the built-in
keyword sets for entry, senior, lead in that order; else `"mid"`. -/
def determine_level (title desc : String) (mapping : List (String × String)) : String :=
  let text := pyLower (title ++ " " ++ desc)
  match mapping.find? (fun kv => strIn kv.1 text) with
  | some kv => kv.2
  | none =>
    if ["junior", "entry", "graduate"].any (fun w => strIn w text) then "entry"
    else if ["senior", "sr."].any (fun w => strIn w text) then "senior"
    else if ["lead", "principal", "staff"].any (fun w => strIn w text) then "lead"
    else "mid"

/-- `DEFAULT_SCRAPING_CONFIG["experienceLevelMapping"]` (metadata.py), in the
dict's insertion order (Python dicts iterate in insertion order). -/
def defaultExperienceLevelMapping : List (String × String) :=
  [("junior", "entry"), ("entry", "entry"), ("graduate", "entry"), ("intern", "entry"),
   ("mid-level", "mid"), ("mid", "mid"), ("intermediate", "mid"),
   ("senior", "senior"), ("sr", "senior"),
   ("lead", "lead"), ("principal", "lead"), ("staff", "lead"), ("director", "lead")]

/-! ## `scraper/metadata.py` -/

/-- The structured endpoint hint produced by `detect_endpoint` (metadata.py):
`{"type": ..., "method": "GET"}` with an `Accept: application/json` header in
the api case. -/
structure EndpointPayload where
  type : String
  method : String
  acceptJson : Bool
deriving DecidableEq, Repr

/-- `detect_endpoint` (metadata.py). -/
def detect_endpoint (url : String) : EndpointPayload :=
  if ["/api/", ".json", "/v1/", "/v2/"].any (fun t => strIn t url) then
    ⟨"api", "GET", true⟩
  else
    ⟨"webpage", "GET", false⟩

/-- models.py `Company`.  Of the `scraping_config` dict only the
`experienceLevelMapping` component is modelled (the selector strings merely
drive the external browser, which is a collaborator, not core). -/
structure Company where
  id : String
  name : String
  domain : Option String
  careers_url : Option String
  careers_endpoint_payload : Option EndpointPayload
  scraping_config : Option (List (String × String))
deriving DecidableEq, Repr

/-! ## `scraper/job_scraper.py`: parsing scraped items into `ScrapedJob`s -/

/-- `_parse_requirements` (job_scraper.py): split on newlines, strip each
line, keep lines of length strictly between 0 and 200, truncate to 10. -/
def parse_requirements (text : String) : List String :=
  if text == "" then []
  else
    (((text.splitOn "\n").map pyStrip).filter
      (fun p => 0 < p.length && p.length < 200)).take 10

/-- A JSON object in the API response's job array, restricted to the keys
`_parse_api_job` reads; absent keys are `none`. -/
structure ApiItem where
  title : Option String := none
  name : Option String := none
  position : Option String := none
  location : Option String := none
  office : Option String := none
  city : Option String := none
  description : Option String := none
  summary : Option String := none
  apply_url : Option String := none
  url : Option String := none
  link : Option String := none
  requirements : Option String := none
  qualifications : Option String := none
  skills : Option String := none
deriving DecidableEq, Repr

/-- Python `a or d` where `d` is a plain (non-`None`) string. -/
def pyOrS (a : Option String) (d : String) : String :=
  match a with
  | none => d
  | some s => if s == "" then d else s

/-- `_parse_api_job` (job_scraper.py): field fallback chains with Python
truthiness; items with a falsy title are dropped; `application_url` falls
back to the company's `careers_url`. -/
def parse_api_job (item : ApiItem) (company : Company) : Option ScrapedJob :=
  let title := pyOr item.title (pyOr item.name item.position)
  if pyTruthy title then
    let t := title.getD ""
    let location := pyOrS (pyOr item.location (pyOr item.office item.city)) "Remote"
    let desc := pyOrS (pyOr item.description item.summary) ""
    let apply_url := pyOr item.apply_url (pyOr item.url (pyOr item.link company.careers_url))
    let req_text := pyOrS (pyOr item.requirements (pyOr item.qualifications item.skills)) desc
    some { title := pyStrip t
           company := company.name
           company_id := company.id
           location := pyStrip location
           description := pyStrip desc
           requirements := parse_requirements req_text
           experience_level := determine_level t desc defaultExperienceLevelMapping
           application_url := apply_url }
  else
    none

/-- `_scrape_api`'s parse stage (job_scraper.py): map `_parse_api_job` over
the extracted job array, keeping the successfully parsed items. -/
def scrape_api_items (items : List ApiItem) (company : Company) : List ScrapedJob :=
  items.filterMap (fun item => parse_api_job item company)

/-- One matched listing element in page mode, restricted to what the
`_text`/`_attr` helpers return for it: `_text` yields `""` when the
sub-selector matches nothing or extraction throws, `_attr` yields `none`. -/
structure WebElement where
  title : String := ""
  location : String := ""
  description : String := ""
  requirements : String := ""
  app_url : Option String := none
deriving DecidableEq, Repr

/-- The per-element body of `_scrape_web`'s loop (job_scraper.py):
elements with a falsy title are skipped; `app_url` falls back to the
company's `careers_url`.  `mapping` is the `experienceLevelMapping` of the
merged `{**DEFAULT_SCRAPING_CONFIG, **(company.scraping_config or {})}`. -/
def parse_web_element (company : Company) (mapping : List (String × String))
    (el : WebElement) : Option ScrapedJob :=
  if el.title == "" then none
  else
    let location := if el.location == "" then "Not specified" else el.location
    let desc := el.description
    let req_text := if el.requirements == "" then desc else el.requirements
    let app_url := pyOr el.app_url company.careers_url
    some { title := pyStrip el.title
           company := company.name
           company_id := company.id
           location := pyStrip location
           description := pyStrip desc
           requirements := parse_requirements req_text
           experience_level := determine_level el.title desc mapping
           application_url := app_url }

/-- `_scrape_web`'s parse stage over the matched elements; a listing element
whose extraction fails is skipped and does not abort the rest. -/
def scrape_web_elements (elements : List WebElement) (company : Company)
    (mapping : List (String × String)) : List ScrapedJob :=
  elements.filterMap (fun el => parse_web_element company mapping el)

/-- Mode selection in `scrape_company` (job_scraper.py): an explicit
endpoint-type hint wins; otherwise infer `"api"` when the careers URL is
truthy and contains an API-like marker, else `"webpage"`. -/
def scrapeMode (company : Company) : String :=
  let inferred :=
    if pyTruthy company.careers_url &&
        (["/api/", ".json"].any (fun x => strIn x (company.careers_url.getD ""))) then
      "api"
    else
      "webpage"
  pyOrS (company.careers_endpoint_payload.map (fun p => p.type)) inferred

/-! ## Database state -/

/-- models.py `RunMetrics`. -/
structure RunMetrics where
  companies_discovered : Nat := 0
  companies_with_careers : Nat := 0
  companies_scraped : Nat := 0
  jobs_scraped : Nat := 0
  jobs_inserted : Nat := 0
  jobs_updated : Nat := 0
  jobs_marked_unavailable : Nat := 0
  errors : List String := []
deriving DecidableEq, Repr

/-- A row of the `jobs` table.  `application_url` carries a unique
constraint (the `ON CONFLICT` target); `updated_at`/`created_at` are
omitted. -/
structure JobRow where
  id : Nat
  title : String
  company_id : String
  company : String
  location : String
  description : String
  requirements : List String
  experience_level : String
  application_url : Option String
  is_available : Bool
deriving DecidableEq, Repr

/-- A row of the `companies` table.  `name` carries the unique constraint
(the `ON CONFLICT` target). -/
structure CompanyRow where
  id : Nat
  name : String
  domain : Option String
  careers_url : Option String
  careers_endpoint_payload : Option EndpointPayload
  scraping_config : Option (List (String × String))
  is_active : Bool
  discovery_source : String
deriving DecidableEq, Repr

/-- Run lifecycle states of `scraping_runs.status`. -/
inductive RunStatus where
  | queued
  | running
  | success
  | failed
deriving DecidableEq, Repr

/-- A row of the `scraping_runs` table.  `started_at` defaults to the
enqueue time on insert; the counter columns are null until the success
update writes them.  `finished_at` is omitted. -/
structure RunRow where
  id : Nat
  status : RunStatus
  started_at : Nat
  details : Option RunMetrics := none
  companies_scraped : Option Nat := none
  jobs_scraped : Option Nat := none
  jobs_inserted : Option Nat := none
  jobs_updated : Option Nat := none
  jobs_marked_unavailable : Option Nat := none
deriving DecidableEq, Repr

/-- The persisted store: the three tables plus id sequences. -/
structure DB where
  companies : List CompanyRow := []
  jobs : List JobRow := []
  runs : List RunRow := []
  next_company_id : Nat := 0
  next_job_id : Nat := 0
  next_run_id : Nat := 0
deriving DecidableEq, Repr

/-- Status of the run with the given id, if present. -/
def runStatus (db : DB) (runId : Nat) : Option RunStatus :=
  (db.runs.find? (fun r => r.id == runId)).map (fun r => r.status)

/-- Details column of the run with the given id, if present. -/
def runDetails (db : DB) (runId : Nat) : Option RunMetrics :=
  match db.runs.find? (fun r => r.id == runId) with
  | some r => r.details
  | none => none

/-- api.py `/trigger`: `INSERT INTO scraping_runs (status) VALUES ('queued')`;
`started_at` defaults to the enqueue time. -/
def trigger (db : DB) (now : Nat) : DB :=
  { db with
    runs := db.runs ++ [{ id := db.next_run_id, status := .queued, started_at := now }]
    next_run_id := db.next_run_id + 1 }

/-! ## `scraper/pipeline.py`: Reconciler -/

/-- A company candidate dict produced by discovery
(company_discovery.py `_extract_company`). -/
structure Candidate where
  name : String
  domain : Option String := none
  careers_url : Option String := none
  discovery_source : Option String := none
deriving DecidableEq, Repr

/-- One iteration of `upsert_companies` (pipeline.py) is built from the
pieces below: compute the endpoint hint from the candidate's careers URL
when truthy (`detect_endpoint(c.get("careers_url")) if c.get("careers_url")
else None`), then
`INSERT ... ON CONFLICT (name) DO UPDATE SET domain=EXCLUDED.domain,
careers_url=COALESCE(EXCLUDED.careers_url, companies.careers_url),
careers_endpoint_payload=COALESCE(payload, companies.careers_endpoint_payload)`. -/
def candidatePayload (c : Candidate) : Option EndpointPayload :=
  if pyTruthy c.careers_url then some (detect_endpoint (c.careers_url.getD "")) else none

/-- The row inserted for a new candidate: `is_active` starts true,
`discovery_source` falls back to "search_engine". -/
def newCompanyRow (nextId : Nat) (c : Candidate) : CompanyRow :=
  { id := nextId
    name := c.name
    domain := c.domain
    careers_url := c.careers_url
    careers_endpoint_payload := candidatePayload c
    scraping_config := none
    is_active := true
    discovery_source := pyOrS c.discovery_source "search_engine" }

/-- The `DO UPDATE SET` assignment on a name conflict: `domain` is taken
from the candidate unconditionally, `careers_url` and the endpoint payload
only via COALESCE (keep the stored value when the new one is SQL NULL). -/
def updateCompanyRow (c : Candidate) (r : CompanyRow) : CompanyRow :=
  { r with
    domain := c.domain
    careers_url := c.careers_url.or r.careers_url
    careers_endpoint_payload := (candidatePayload c).or r.careers_endpoint_payload }

def upsertCompanyRow (table : List CompanyRow) (nextId : Nat) (c : Candidate) :
    List CompanyRow × Nat :=
  if table.any (fun r => r.name == c.name) then
    (table.map (fun r => if r.name == c.name then updateCompanyRow c r else r), nextId)
  else
    (table ++ [newCompanyRow nextId c], nextId + 1)

/-- `upsert_companies` (pipeline.py): fold the single-row upsert over the
discovered candidates (the empty list returns the table unchanged, matching
the early `return 0`). -/
def upsert_companies (table : List CompanyRow) (nextId : Nat) :
    List Candidate → List CompanyRow × Nat
  | [] => (table, nextId)
  | c :: rest =>
    let (t, n) := upsertCompanyRow table nextId c
    upsert_companies t n rest

/-- Number of `companies` rows carrying the given name. -/
def countName (table : List CompanyRow) (n : String) : Nat :=
  (table.filter (fun r => r.name == n)).length

/-- Conflict test of the `jobs` unique constraint on `application_url`:
PostgreSQL unique constraints never treat NULL as conflicting. -/
def urlConflict (a b : Option String) : Bool :=
  match a, b with
  | some x, some y => x == y
  | _, _ => false

/-- The row inserted for a job by `save_jobs`'s INSERT values:
`is_available` starts true. -/
def newJobRow (nextId : Nat) (j : ScrapedJob) : JobRow :=
  { id := nextId
    title := j.title
    company_id := j.company_id
    company := j.company
    location := j.location
    description := j.description
    requirements := j.requirements
    experience_level := j.experience_level
    application_url := j.application_url
    is_available := true }

/-- The `DO UPDATE SET` assignment applied to a conflicting row: update the
mutable fields and force `is_available=true`; key and ownership columns
(`application_url`, `company`, `company_id`) are not in the SET list. -/
def updateJobRow (j : ScrapedJob) (r : JobRow) : JobRow :=
  { r with
    title := j.title
    location := j.location
    description := j.description
    requirements := j.requirements
    experience_level := j.experience_level
    is_available := true }

/-- One iteration of `save_jobs` (pipeline.py):
`INSERT ... ON CONFLICT (application_url) DO UPDATE SET title, location,
description, requirements, experience_level, is_available=true
RETURNING xmax = 0 as inserted`.  Returns the new table, the next id and
the `inserted` flag. -/
def upsertJobRow (table : List JobRow) (nextId : Nat) (j : ScrapedJob) :
    List JobRow × Nat × Bool :=
  if table.any (fun r => urlConflict r.application_url j.application_url) then
    (table.map (fun r =>
      if urlConflict r.application_url j.application_url then updateJobRow j r else r),
     nextId, false)
  else
    (table ++ [newJobRow nextId j], nextId + 1, true)

/-- `save_jobs` (pipeline.py): upsert each job in order; every upsert
increments exactly one of `jobs_inserted`/`jobs_updated` according to the
`RETURNING xmax = 0` flag.  The empty list leaves everything unchanged,
matching the early `return`. -/
def save_jobs (jobs : List ScrapedJob) (table : List JobRow) (nextId : Nat)
    (m : RunMetrics) : List JobRow × Nat × RunMetrics :=
  match jobs with
  | [] => (table, nextId, m)
  | j :: rest =>
    let res := upsertJobRow table nextId j
    let m1 :=
      if res.2.2 then { m with jobs_inserted := m.jobs_inserted + 1 }
      else { m with jobs_updated := m.jobs_updated + 1 }
    save_jobs rest res.1 res.2.1 m1

/-- Number of `jobs` rows carrying the given non-null `application_url`. -/
def countUrl (table : List JobRow) (u : String) : Nat :=
  (table.filter (fun r => r.application_url == some u)).length

/-- `invalidate_missing` (pipeline.py): skip entirely when `current_urls` is
empty; else fetch the company's available rows, and mark unavailable (by id)
those whose `application_url` is not in `current_urls`, adding their count
to `jobs_marked_unavailable`. -/
def invalidate_missing (table : List JobRow) (companyId : String)
    (current_urls : List (Option String)) (m : RunMetrics) :
    List JobRow × RunMetrics :=
  if current_urls.isEmpty then (table, m)
  else
    let available := table.filter (fun r => r.company_id == companyId && r.is_available)
    let to_disable :=
      (available.filter (fun r => !current_urls.contains r.application_url)).map
        (fun r => r.id)
    if to_disable.isEmpty then (table, m)
    else
      (table.map (fun r =>
        if to_disable.contains r.id then { r with is_available := false } else r),
       { m with jobs_marked_unavailable := m.jobs_marked_unavailable + to_disable.length })

/-! ## `scraper/pipeline.py`: Run Coordinator -/

/-- The SELECT statement of `claim_next_run` (pipeline.py):
`SELECT id FROM scraping_runs WHERE status='queued' ORDER BY started_at ASC
FOR UPDATE SKIP LOCKED LIMIT 1` — the oldest queued row by `started_at`
(first in table order among ties). -/
def claimSelect (runs : List RunRow) : Option Nat :=
  match runs.filter (fun r => r.status == .queued) with
  | [] => none
  | r :: rest =>
    some ((rest.foldl (fun best r2 => if r2.started_at < best.started_at then r2 else best) r).id)

/-- The UPDATE statement of `claim_next_run` (pipeline.py):
`UPDATE scraping_runs SET status='running', started_at=NOW() WHERE id=$1` —
note: no `status='queued'` guard in the WHERE clause. -/
def claimUpdate (db : DB) (runId : Nat) (now : Nat) : DB :=
  { db with
    runs := db.runs.map (fun r =>
      if r.id == runId then { r with status := .running, started_at := now } else r) }

/-- `claim_next_run` (pipeline.py) executed without interference from other
claimants: the SELECT followed by the UPDATE on the selected id. -/
def claim_next_run (db : DB) (now : Nat) : Option Nat × DB :=
  match claimSelect db.runs with
  | none => (none, db)
  | some i => (some i, claimUpdate db i now)

/-- One specific interleaving of two concurrent `claim_next_run` calls at
statement granularity: both SELECT statements execute before either UPDATE.
This interleaving is reachable because asyncpg runs each pooled statement in
its own implicit transaction (autocommit), so the `FOR UPDATE SKIP LOCKED`
row lock taken by a SELECT is released as soon as that statement commits —
nothing keeps it held until the claimant's UPDATE.  Returns both workers'
return values and the final table. -/
def interleaved_claims (db : DB) (now1 now2 : Nat) : Option Nat × Option Nat × DB :=
  let r1 := claimSelect db.runs
  let r2 := claimSelect db.runs
  let db1 := match r1 with | some i => claimUpdate db i now1 | none => db
  let db2 := match r2 with | some i => claimUpdate db1 i now2 | none => db1
  (r1, r2, db2)

/-- `load_active_companies` (pipeline.py): the active company rows (LIMIT
200 in table order), mapped to `Company` values with
`careers_endpoint_payload or {}` and `scraping_config or DEFAULT`. -/
def load_active_companies (db : DB) (limit : Nat := 200) : List Company :=
  ((db.companies.filter (fun r => r.is_active)).take limit).map (fun r =>
    { id := toString r.id
      name := r.name
      domain := r.domain
      careers_url := r.careers_url
      careers_endpoint_payload := r.careers_endpoint_payload
      scraping_config := some (r.scraping_config.getD defaultExperienceLevelMapping) })

/-- The external effects one run of the pipeline observes: the discovery
call (which may raise), the per-company scrape (total: `scrape_company`
catches every exception internally and returns `[]`), and the browser
shutdown in the `finally` block (which may raise). -/
structure PipelineEnv where
  discovered : Except String (List Candidate)
  scrape : Company → List ScrapedJob
  closeResult : Except String Unit

/-- The per-company loop of `run_pipeline` (pipeline.py): a company whose
scrape returns no jobs is skipped entirely; otherwise count it and its raw
jobs, deduplicate, persist, and invalidate against the deduplicated batch's
URL list. -/
def scrape_loop (scrape : Company → List ScrapedJob) :
    List Company → DB → RunMetrics → DB × RunMetrics
  | [], db, m => (db, m)
  | c :: rest, db, m =>
    let jobs := scrape c
    if jobs.isEmpty then scrape_loop scrape rest db m
    else
      let m1 := { m with
                  companies_scraped := m.companies_scraped + 1
                  jobs_scraped := m.jobs_scraped + jobs.length }
      let unique := deduplicate jobs
      let saved := save_jobs unique db.jobs db.next_job_id m1
      let inv :=
        invalidate_missing saved.1 c.id (unique.map (fun j => j.application_url)) saved.2.2
      scrape_loop scrape rest { db with jobs := inv.1, next_job_id := saved.2.1 } inv.2

/-- The `try` body of `run_pipeline` (pipeline.py): discovery, metrics
initialization, company upsert, company load, the per-company loop, then the
scraper shutdown.  An error carries the message together with the metrics
accumulated and the database writes committed before the failure. -/
def pipeline_body (env : PipelineEnv) (db : DB) :
    Except (String × RunMetrics × DB) (RunMetrics × DB) :=
  match env.discovered with
  | .error e => .error (e, {}, db)
  | .ok discovered =>
    let m0 : RunMetrics :=
      { companies_discovered := discovered.length
        companies_with_careers := (discovered.filter (fun c => pyTruthy c.careers_url)).length
        companies_scraped := 0 }
    let up := upsert_companies db.companies db.next_company_id discovered
    let db1 := { db with companies := up.1, next_company_id := up.2 }
    let companies := load_active_companies db1
    let looped := scrape_loop env.scrape companies db1 m0
    match env.closeResult with
    | .error e => .error (e, looped.2, looped.1)
    | .ok _ => .ok (looped.2, looped.1)

/-- `run_pipeline` (pipeline.py): run the body; on success write the one
terminal update setting status, details and the counter columns; on any
unhandled failure append the message to `metrics.errors` and write the
terminal update setting status='failed' and details only (the counter
columns are not written on the failure path). -/
def run_pipeline (env : PipelineEnv) (runId : Nat) (db : DB) : DB :=
  match pipeline_body env db with
  | .ok (m, db1) =>
    { db1 with
      runs := db1.runs.map (fun r =>
        if r.id == runId then
          { r with
            status := .success
            details := some m
            companies_scraped := some m.companies_scraped
            jobs_scraped := some m.jobs_scraped
            jobs_inserted := some m.jobs_inserted
            jobs_updated := some m.jobs_updated
            jobs_marked_unavailable := some m.jobs_marked_unavailable }
        else r) }
  | .error (e, m, db1) =>
    let m1 := { m with errors := m.errors ++ [e] }
    { db1 with
      runs := db1.runs.map (fun r =>
        if r.id == runId then { r with status := .failed, details := some m1 } else r) }

/-- One iteration of `background_worker` (pipeline.py): attempt a claim,
run the pipeline when a run was obtained; always falls through to the sleep
and the next iteration — `run_pipeline` swallows pipeline failures. -/
def worker_step (env : PipelineEnv) (db : DB) (now : Nat) : DB :=
  match claim_next_run db now with
  | (some runId, db1) => run_pipeline env runId db1
  | (none, db1) => db1

/-- A reachable interleaving of two workers at statement granularity:
worker 1 executes its claim SELECT; worker 2 then executes its whole claim
and pipeline; worker 1 finally executes its claim UPDATE with the stale id.
Reachable for the same reason as `interleaved_claims`: the SELECT's row lock
ends with the SELECT statement, and every `await` between the two statements
is a suspension point. -/
def stale_claim_trace (db : DB) (env : PipelineEnv) (now1 now2 : Nat) : DB :=
  match claimSelect db.runs with
  | none => db
  | some i1 =>
    let db1 :=
      match claimSelect db.runs with
      | some i2 => run_pipeline env i2 (claimUpdate db i2 now2)
      | none => db
    claimUpdate db1 i1 now1

/-! ## Helper lemmas -/

/-- `Char.toLower` is the identity on characters that are not upper-case
ASCII letters. -/
theorem toLower_eq_self_of_not_upper {c : Char} (h : c.isUpper = false) : c.toLower = c := by
  have hn : ¬(c.toNat ≥ 65 ∧ c.toNat ≤ 90) := by
    rintro ⟨h1, h2⟩
    simp only [Char.isUpper, Bool.and_eq_false_iff, decide_eq_false_iff_not,
      UInt32.le_def, BitVec.le_def] at h
    have e1 : (UInt32.toBitVec 65).toNat = 65 := rfl
    have e2 : (UInt32.toBitVec 90).toNat = 90 := rfl
    simp only [Char.toNat, UInt32.toNat] at h1 h2
    rcases h with h | h <;> simp only [e1, e2] at h <;> omega
  simp [Char.toLower, hn]

/-- `Char.toLower` is the identity on non-word characters. -/
theorem toLower_eq_self_of_not_word {c : Char} (h : isPyWord c = false) : c.toLower = c := by
  apply toLower_eq_self_of_not_upper
  simp only [isPyWord, Char.isAlphanum, Char.isAlpha, Bool.or_eq_false_iff] at h
  exact h.1.1.1

/-- `Char.toLower` is the identity on whitespace characters. -/
theorem toLower_eq_self_of_space {c : Char} (h : isPySpace c = true) : c.toLower = c := by
  apply toLower_eq_self_of_not_upper
  revert h
  simp only [isPySpace, Bool.or_eq_true, beq_iff_eq]
  rintro (((((rfl | rfl) | rfl) | rfl) | rfl) | rfl) <;> rfl

/-- Stripping ignores an all-whitespace leading block. -/
theorem stripChars_spaces_front {w x : List Char} (h : w.all isPySpace = true) :
    stripChars (w ++ x) = stripChars x := by
  unfold stripChars
  rw [List.dropWhile_append_of_pos (by simpa [List.all_eq_true] using h)]

/-- Stripping ignores an all-whitespace trailing block. -/
theorem stripChars_spaces_back {w x : List Char} (h : w.all isPySpace = true) :
    stripChars (x ++ w) = stripChars x := by
  have hw : w.dropWhile isPySpace = [] := by
    rw [List.dropWhile_eq_nil_iff]
    simpa [List.all_eq_true] using h
  unfold stripChars
  rw [List.dropWhile_append]
  split
  · rename_i he
    rw [List.isEmpty_iff] at he
    simp [hw, he]
  · rw [List.reverse_append,
      List.dropWhile_append_of_pos (by simp_all [List.all_eq_true])]

/-- `normalize` computed at the level of character lists. -/
theorem normalize_eq (s : String) :
    normalize s =
      ⟨stripChars ((s.toList.map Char.toLower).filter
        (fun c => isPyWord c || isPySpace c))⟩ := rfl

/-! ## Claim C5 -/

/-- C5 counterexample: the claim says the identity key equals the pipe-joined
spec normalization (which strips every character that is not alphanumeric or
whitespace), and that two jobs differing only in punctuation get equal keys.
Both parts fail on `"a_b"`: Python's `\w` class keeps the underscore (a
punctuation character, Unicode class Pc), so `normalize "a_b" = "a_b"` while
the spec's normalization yields `"ab"`, and the keys of two jobs whose titles
differ only in that underscore differ. -/
theorem C5_normalize_counterexample :
    (job_key { title := "a_b", company := "Acme", company_id := "1", location := "NY",
               description := "", requirements := [], experience_level := "mid",
               application_url := none } ≠
       spec_job_key { title := "a_b", company := "Acme", company_id := "1", location := "NY",
                      description := "", requirements := [], experience_level := "mid",
                      application_url := none }) ∧
    (spec_job_key { title := "a_b", company := "Acme", company_id := "1", location := "NY",
                    description := "", requirements := [], experience_level := "mid",
                    application_url := none } =
       spec_job_key { title := "ab", company := "Acme", company_id := "1", location := "NY",
                      description := "", requirements := [], experience_level := "mid",
                      application_url := none }) ∧
    (job_key { title := "a_b", company := "Acme", company_id := "1", location := "NY",
               description := "", requirements := [], experience_level := "mid",
               application_url := none } ≠
       job_key { title := "ab", company := "Acme", company_id := "1", location := "NY",
                 description := "", requirements := [], experience_level := "mid",
                 application_url := none }) := by
  refine ⟨by decide, by decide, by decide⟩

/-- C5 (amended): the Normalizer's identity key is the pipe-joined
`normalize` of title, company and location, where `normalize` keeps word
characters (alphanumeric or underscore, Python `\w`) and whitespace and
strips the rest; hence the key is invariant under case differences, under
inserted or removed punctuation other than the underscore, and under
surrounding whitespace, and jobs whose three fields normalize equal get
equal keys. -/
theorem C5_normalize_invariance :
    (∀ s1 s2 : String, pyLower s1 = pyLower s2 → normalize s1 = normalize s2) ∧
    (∀ a p b : String, p.toList.all (fun c => !(isPyWord c || isPySpace c)) = true →
      normalize (a ++ p ++ b) = normalize (a ++ b)) ∧
    (∀ w s w2 : String, w.toList.all isPySpace = true → w2.toList.all isPySpace = true →
      normalize (w ++ s ++ w2) = normalize s) ∧
    (∀ j1 j2 : ScrapedJob, normalize j1.title = normalize j2.title →
      normalize j1.company = normalize j2.company →
      normalize j1.location = normalize j2.location → job_key j1 = job_key j2) := by
  refine ⟨?_, ?_, ?_, ?_⟩
  · intro s1 s2 h
    unfold normalize
    rw [h]
  · intro a p b hp
    rw [normalize_eq, normalize_eq]
    have htl : (a ++ p ++ b).toList = a.toList ++ p.toList ++ b.toList := by
      simp [String.toList]
    have htl2 : (a ++ b).toList = a.toList ++ b.toList := by simp [String.toList]
    rw [htl, htl2]
    simp only [List.map_append, List.filter_append]
    have hpf : (p.toList.map Char.toLower).filter (fun c => isPyWord c || isPySpace c) = [] := by
      rw [List.filter_eq_nil_iff]
      intro c hc
      obtain ⟨c0, hc0, rfl⟩ := List.mem_map.mp hc
      rw [List.all_eq_true] at hp
      have h0 := hp c0 hc0
      simp only [Bool.not_eq_eq_eq_not, Bool.not_true, Bool.or_eq_false_iff] at h0
      rw [toLower_eq_self_of_not_word h0.1]
      simp [h0.1, h0.2]
    rw [hpf]
    simp
  · intro w s w2 hw hw2
    rw [normalize_eq, normalize_eq]
    have htl : (w ++ s ++ w2).toList = w.toList ++ s.toList ++ w2.toList := by
      simp [String.toList]
    rw [htl]
    simp only [List.map_append, List.filter_append]
    have hkeep : ∀ (u : List Char), u.all isPySpace = true →
        (u.map Char.toLower).filter (fun c => isPyWord c || isPySpace c) = u := by
      intro u hu
      rw [List.all_eq_true] at hu
      have hmap : u.map Char.toLower = u := by
        rw [List.map_congr_left (fun a ha => toLower_eq_self_of_space (hu a ha))]
        exact List.map_id u
      rw [hmap, List.filter_eq_self.mpr]
      intro c hc
      simp [hu c hc]
    rw [hkeep _ hw, hkeep _ hw2]
    show (⟨stripChars (w.toList ++ _ ++ w2.toList)⟩ : String) = _
    rw [List.append_assoc, stripChars_spaces_front hw, stripChars_spaces_back hw2]
  · intro j1 j2 h1 h2 h3
    unfold job_key
    rw [h1, h2, h3]

/-- C5 witness: each part of `C5_normalize_invariance` discharged on a
concrete input. -/
theorem C5_normalize_invariance_witness :
    (normalize "Senior DEV" = normalize "senior dev") ∧
    (normalize ("a" ++ ",!" ++ "b") = normalize ("a" ++ "b")) ∧
    (normalize ("  " ++ "dev" ++ " ") = normalize "dev") ∧
    (job_key { title := "Dev", company := "Acme", company_id := "1", location := "NY",
               description := "", requirements := [], experience_level := "mid",
               application_url := none } =
       job_key { title := "dev!", company := " acme", company_id := "2", location := "(NY)",
                 description := "d", requirements := [], experience_level := "entry",
                 application_url := some "u" }) :=
  ⟨C5_normalize_invariance.1 "Senior DEV" "senior dev" (by decide),
   C5_normalize_invariance.2.1 "a" ",!" "b" (by decide),
   C5_normalize_invariance.2.2.1 "  " "dev" " " (by decide) (by decide),
   C5_normalize_invariance.2.2.2 _ _ (by decide) (by decide) (by decide)⟩

/-! ## Claim C8 -/

/-- C8: experience-level classification works on the lower-cased
`title + " " + desc` and applies rules in priority order with the first
matching rule deciding the result and no cumulative scoring: the first
config-mapping key found as a substring wins over everything after it
(including every built-in keyword set); when no config key matches, an
entry keyword decides `"entry"` regardless of any senior/lead keyword also
present; and with the default config mapping, any text containing
`"entry"` — in particular one containing both `"senior"` and `"entry"` —
resolves to `"entry"` (`"junior"` and `"entry"`, the only keys at or before
`"entry"` in the mapping's iteration order, both map to `"entry"`). -/
theorem C8_level_priority :
    (∀ title desc : String, ∀ pre post : List (String × String), ∀ k v : String,
      (∀ kv ∈ pre, strIn kv.1 (pyLower (title ++ " " ++ desc)) = false) →
      strIn k (pyLower (title ++ " " ++ desc)) = true →
      determine_level title desc (pre ++ (k, v) :: post) = v) ∧
    (∀ title desc : String, ∀ mapping : List (String × String),
      (∀ kv ∈ mapping, strIn kv.1 (pyLower (title ++ " " ++ desc)) = false) →
      strIn "entry" (pyLower (title ++ " " ++ desc)) = true →
      determine_level title desc mapping = "entry") ∧
    (∀ title desc : String,
      strIn "entry" (pyLower (title ++ " " ++ desc)) = true →
      determine_level title desc defaultExperienceLevelMapping = "entry") := by
  refine ⟨?_, ?_, ?_⟩
  · intro title desc pre post k v hpre hk
    simp only [determine_level, List.find?_append]
    rw [List.find?_eq_none.mpr (by simpa using hpre)]
    rw [List.find?_cons_of_pos _ (by simpa using hk)]
    rfl
  · intro title desc mapping hpre hk
    simp only [determine_level]
    rw [List.find?_eq_none.mpr (by simpa using hpre)]
    simp [hk]
  · intro title desc hk
    simp only [determine_level, defaultExperienceLevelMapping]
    cases hjun : strIn "junior" (pyLower (title ++ " " ++ desc)) with
    | true => rw [List.find?_cons_of_pos _ (by simpa using hjun)]
    | false =>
      rw [List.find?_cons_of_neg _ (by simpa using hjun)]
      rw [List.find?_cons_of_pos _ (by simpa using hk)]

/-- C8 witness: the three parts of `C8_level_priority` discharged on
concrete inputs, including the spec's adversarial
"Senior-entry-level hybrid" title, which resolves to `"entry"`. -/
theorem C8_level_priority_witness :
    (determine_level "Lead architect" "" ([("backend", "mid")] ++ ("lead", "senior") :: []) =
      "senior") ∧
    (determine_level "Senior entry role" "" [("staffing", "lead")] = "entry") ∧
    (determine_level "Senior-entry-level hybrid" "" defaultExperienceLevelMapping = "entry") :=
  ⟨C8_level_priority.1 "Lead architect" "" [("backend", "mid")] [] "lead" "senior"
      (by decide) (by decide),
   C8_level_priority.2.1 "Senior entry role" "" [("staffing", "lead")] (by decide) (by decide),
   C8_level_priority.2.2 "Senior-entry-level hybrid" "" (by decide)⟩

/-! ## Claim C1 -/

/-- Membership of a row's id in the ids of a filtered table decides the
filter predicate, provided the table's ids are distinct. -/
theorem contains_filtered_ids {table : List JobRow}
    (hnd : (table.map (fun r => r.id)).Nodup)
    (p : JobRow → Bool) (r : JobRow) (hr : r ∈ table) :
    ((table.filter p).map (fun r => r.id)).contains r.id = p r := by
  cases hp : p r with
  | true =>
    have hm : r.id ∈ (table.filter p).map (fun r => r.id) :=
      List.mem_map.mpr ⟨r, List.mem_filter.mpr ⟨hr, hp⟩, rfl⟩
    simp [List.contains, hm]
  | false =>
    by_contra hc
    simp only [Bool.not_eq_false, List.contains, List.elem_eq_mem, decide_eq_true_eq] at hc
    obtain ⟨r2, hr2, hid⟩ := List.mem_map.mp hc
    obtain ⟨hr2t, hp2⟩ := List.mem_filter.mp hr2
    have heq := List.inj_on_of_nodup_map hnd hr2t hr hid
    rw [heq] at hp2
    rw [hp2] at hp
    exact Bool.true_eq_false.mp hp

/-- C1: with an empty batch, `invalidate_missing` modifies nothing; with a
non-empty batch (and distinct row ids, the table's primary key), it flips
`is_available` to false on exactly those rows of the given company that
were available and whose `application_url` is absent from the batch's URL
list — leaving every other field and row unchanged — and adds their count
to `jobs_marked_unavailable`. -/
theorem C1_invalidate_missing :
    ∀ (table : List JobRow) (cid : String) (urls : List (Option String)) (m : RunMetrics),
      (invalidate_missing table cid [] m = (table, m)) ∧
      (urls ≠ [] → (table.map (fun r => r.id)).Nodup →
        invalidate_missing table cid urls m =
          (table.map (fun r =>
             if r.company_id == cid && r.is_available && !urls.contains r.application_url then
               { r with is_available := false }
             else r),
           { m with jobs_marked_unavailable := m.jobs_marked_unavailable +
               (table.filter (fun r =>
                 r.company_id == cid && r.is_available &&
                 !urls.contains r.application_url)).length })) := by
  intro table cid urls m
  constructor
  · simp [invalidate_missing]
  · intro hne hnd
    have hempty : urls.isEmpty = false := by
      cases urls with
      | nil => exact absurd rfl hne
      | cons a as => rfl
    have hff : (table.filter (fun r => r.company_id == cid && r.is_available)).filter
        (fun r => !urls.contains r.application_url) =
        table.filter (fun r =>
          r.company_id == cid && r.is_available && !urls.contains r.application_url) := by
      rw [List.filter_filter]
      apply List.filter_congr
      intro r _
      rw [Bool.and_comm]
    simp only [invalidate_missing, hempty, Bool.false_eq_true, if_false, hff]
    set p := fun r : JobRow =>
      r.company_id == cid && r.is_available && !urls.contains r.application_url with hp
    cases hnil : (table.filter p).map (fun r => r.id) |>.isEmpty with
    | true =>
      rw [List.isEmpty_iff] at hnil
      have hfe : table.filter p = [] := by
        cases hfil : table.filter p with
        | nil => rfl
        | cons x xs => rw [hfil] at hnil; simp at hnil
      simp only [hnil, hfe]
      simp only [List.isEmpty_nil, if_true, List.length_nil, Nat.add_zero]
      rw [Prod.mk.injEq]
      refine ⟨?_, rfl⟩
      conv_lhs => rw [(List.map_id table).symm]
      apply List.map_congr_left
      intro r hr
      have hmem := (List.filter_eq_nil_iff.mp hfe) r hr
      rw [hp] at hmem
      have hpf : (r.company_id == cid && r.is_available && !urls.contains r.application_url)
          = false := Bool.eq_false_iff.mpr (by simpa using hmem)
      rw [hpf]
      simp
    | false =>
      simp only [hnil, Bool.false_eq_true, if_false]
      rw [Prod.mk.injEq]
      constructor
      · apply List.map_congr_left
        intro r hr
        rw [contains_filtered_ids hnd p r hr]
      · rw [List.length_map]

/-- C1 witness: a company with available jobs X and Y and the batch {X}:
exactly Y is marked unavailable, another company's row with the same URL is
untouched, and the counter increases by one. -/
theorem C1_invalidate_missing_witness :
    invalidate_missing
        [⟨1, "t", "c", "Acme", "l", "d", [], "mid", some "X", true⟩,
         ⟨2, "t", "c", "Acme", "l", "d", [], "mid", some "Y", true⟩,
         ⟨3, "t", "other", "Beta", "l", "d", [], "mid", some "Y", true⟩]
        "c" [some "X"] {} =
      ([⟨1, "t", "c", "Acme", "l", "d", [], "mid", some "X", true⟩,
        ⟨2, "t", "c", "Acme", "l", "d", [], "mid", some "Y", false⟩,
        ⟨3, "t", "other", "Beta", "l", "d", [], "mid", some "Y", true⟩],
       { jobs_marked_unavailable := 1 }) := by
  rw [(C1_invalidate_missing _ "c" [some "X"] {}).2 (by decide) (by decide)]
  decide

/-! ## Claim C3 -/

/-- The conflict test against `some u` coincides with row-URL equality. -/
theorem urlConflict_some (a : Option String) (u : String) :
    urlConflict a (some u) = (a == some u) := by
  cases a <;> rfl

/-- `countUrl` is unchanged by maps that preserve `application_url`. -/
theorem countUrl_map {table : List JobRow} {g : JobRow → JobRow}
    (hg : ∀ r, (g r).application_url = r.application_url) (u : String) :
    countUrl (table.map g) u = countUrl table u := by
  unfold countUrl
  rw [List.filter_map, List.length_map]
  congr 1
  apply List.filter_congr
  intro r _
  simp [Function.comp, hg r]

/-- `countUrl` adds over table concatenation. -/
theorem countUrl_append (t1 t2 : List JobRow) (u : String) :
    countUrl (t1 ++ t2) u = countUrl t1 u + countUrl t2 u := by
  unfold countUrl
  rw [List.filter_append, List.length_append]

/-- The conflict branch of the job upsert does not touch `application_url`. -/
theorem upsert_preserves_url (j : ScrapedJob) :
    ∀ r : JobRow,
      ((fun r => if urlConflict r.application_url j.application_url
          then updateJobRow j r else r) r).application_url = r.application_url := by
  intro r
  cases hrc : urlConflict r.application_url j.application_url <;> simp [hrc, updateJobRow]

/-- One job upsert keeps at most one row per non-null URL. -/
theorem upsert_count_le {table : List JobRow} {nextId : Nat} {j : ScrapedJob}
    (h : ∀ u, countUrl table u ≤ 1) :
    ∀ u, countUrl (upsertJobRow table nextId j).1 u ≤ 1 := by
  intro u
  unfold upsertJobRow
  cases hc : table.any (fun r => urlConflict r.application_url j.application_url) with
  | true =>
    simp only [if_true]
    rw [countUrl_map (upsert_preserves_url j)]
    exact h u
  | false =>
    simp only [Bool.false_eq_true, if_false]
    rw [countUrl_append]
    rw [List.any_eq_false] at hc
    cases hj : j.application_url with
    | none =>
      have hz : countUrl [newJobRow nextId j] u = 0 := by
        simp [countUrl, List.filter, newJobRow, hj]
      rw [hz]
      simpa using h u
    | some x =>
      by_cases hux : x = u
      · subst hux
        have hz : countUrl table x = 0 := by
          unfold countUrl
          rw [List.length_eq_zero, List.filter_eq_nil_iff]
          intro r hr
          have hcr := hc r hr
          rw [hj, urlConflict_some] at hcr
          simp [hcr]
        rw [hz]
        have h1 : countUrl [newJobRow nextId j] x ≤ 1 := by
          simp [countUrl, List.filter, newJobRow, hj]
        omega
      · have hxu : (x == u) = false := by simp [hux]
        have hz : countUrl [newJobRow nextId j] u = 0 := by
          simp [countUrl, List.filter, newJobRow, hj, hxu]
        rw [hz]
        simpa using h u

/-- Persisting one job whose URL is absent takes the INSERT path. -/
theorem save_jobs_single_insert {j : ScrapedJob} {u : String} {table : List JobRow}
    {nextId : Nat} {m : RunMetrics} (hj : j.application_url = some u)
    (hz : countUrl table u = 0) :
    save_jobs [j] table nextId m =
      (table ++ [newJobRow nextId j], nextId + 1,
       { m with jobs_inserted := m.jobs_inserted + 1 }) := by
  have hany : table.any (fun r => urlConflict r.application_url j.application_url) = false := by
    rw [List.any_eq_false]
    intro r hr
    rw [hj, urlConflict_some]
    unfold countUrl at hz
    rw [List.length_eq_zero, List.filter_eq_nil_iff] at hz
    simpa using hz r hr
  simp [save_jobs, upsertJobRow, hany]

/-- Persisting one job whose URL is present takes the `DO UPDATE` path. -/
theorem save_jobs_single_update {j : ScrapedJob} {u : String} {table : List JobRow}
    {nextId : Nat} {m : RunMetrics} (hj : j.application_url = some u)
    (hpos : 0 < countUrl table u) :
    save_jobs [j] table nextId m =
      (table.map (fun r => if r.application_url == some u then updateJobRow j r else r),
       nextId, { m with jobs_updated := m.jobs_updated + 1 }) := by
  have hany : (table.any fun r => r.application_url == some u) = true := by
    rw [List.any_eq_true]
    have hne : table.filter (fun r => r.application_url == some u) ≠ [] := by
      intro hnil
      unfold countUrl at hpos
      rw [hnil] at hpos
      simp at hpos
    obtain ⟨r, hr⟩ := List.exists_mem_of_ne_nil _ hne
    have hmf := List.mem_filter.mp hr
    exact ⟨r, hmf.1, hmf.2⟩
  simp only [save_jobs, upsertJobRow, hj, urlConflict_some, hany, if_true,
    Bool.false_eq_true, if_false]

/-- The `DO UPDATE` map does not touch `application_url`. -/
theorem update_map_preserves_url (j : ScrapedJob) (u : String) :
    ∀ r : JobRow,
      ((fun r => if r.application_url == some u then updateJobRow j r else r) r).application_url
        = r.application_url := by
  intro r
  by_cases hc : (r.application_url == some u) = true <;> simp [hc, updateJobRow]

/-- C3: the job upsert is keyed by `application_url` and keeps at most one
row per URL; persisting a job with an absent URL inserts one available row
with the job's fields and increments `jobs_inserted`; persisting one whose
URL exists keeps the table size, rewrites the row's mutable fields, forces
`is_available=true` and increments `jobs_updated`; and persisting the same
URL twice starting from an absent URL leaves exactly one row for it, with
the first call counted as an insert and the second as an update. -/
theorem C3_job_upsert :
    (∀ (jobs : List ScrapedJob) (table : List JobRow) (nextId : Nat) (m : RunMetrics),
      (∀ u, countUrl table u ≤ 1) →
      ∀ u, countUrl (save_jobs jobs table nextId m).1 u ≤ 1) ∧
    (∀ (j : ScrapedJob) (u : String) (table : List JobRow) (nextId : Nat) (m : RunMetrics),
      j.application_url = some u → countUrl table u = 0 →
      countUrl (save_jobs [j] table nextId m).1 u = 1 ∧
      (∀ r ∈ (save_jobs [j] table nextId m).1, r.application_url = some u →
        r.is_available = true ∧ r.title = j.title ∧ r.location = j.location ∧
        r.description = j.description ∧ r.requirements = j.requirements ∧
        r.experience_level = j.experience_level) ∧
      (save_jobs [j] table nextId m).2.2 = { m with jobs_inserted := m.jobs_inserted + 1 }) ∧
    (∀ (j : ScrapedJob) (u : String) (table : List JobRow) (nextId : Nat) (m : RunMetrics),
      j.application_url = some u → 0 < countUrl table u →
      (save_jobs [j] table nextId m).1.length = table.length ∧
      (∀ r ∈ (save_jobs [j] table nextId m).1, r.application_url = some u →
        r.is_available = true ∧ r.title = j.title ∧ r.location = j.location ∧
        r.description = j.description ∧ r.requirements = j.requirements ∧
        r.experience_level = j.experience_level) ∧
      (save_jobs [j] table nextId m).2.2 = { m with jobs_updated := m.jobs_updated + 1 }) ∧
    (∀ (j : ScrapedJob) (u : String) (table : List JobRow) (nextId : Nat) (m : RunMetrics),
      j.application_url = some u → countUrl table u = 0 →
      countUrl (save_jobs [j] (save_jobs [j] table nextId m).1
          (save_jobs [j] table nextId m).2.1 (save_jobs [j] table nextId m).2.2).1 u = 1 ∧
      (save_jobs [j] (save_jobs [j] table nextId m).1 (save_jobs [j] table nextId m).2.1
          (save_jobs [j] table nextId m).2.2).2.2 =
        { m with jobs_inserted := m.jobs_inserted + 1, jobs_updated := m.jobs_updated + 1 }) := by
  refine ⟨?_, ?_, ?_, ?_⟩
  · intro jobs
    induction jobs with
    | nil =>
      intro table nextId m h u
      simpa [save_jobs] using h u
    | cons j rest ih =>
      intro table nextId m h u
      simp only [save_jobs]
      exact ih _ _ _ (upsert_count_le h) u
  · intro j u table nextId m hj hz
    rw [save_jobs_single_insert hj hz]
    refine ⟨?_, ?_, rfl⟩
    · show countUrl (table ++ [newJobRow nextId j]) u = 1
      rw [countUrl_append, hz]
      simp [countUrl, List.filter, newJobRow, hj]
    · intro r hr hru
      rcases List.mem_append.mp hr with h1 | h2
      · exfalso
        unfold countUrl at hz
        rw [List.length_eq_zero, List.filter_eq_nil_iff] at hz
        exact (hz r h1) (by simp [hru])
      · have : r = newJobRow nextId j := by simpa using h2
        subst this
        simp [newJobRow]
  · intro j u table nextId m hj hpos
    rw [save_jobs_single_update hj hpos]
    refine ⟨by simp, ?_, rfl⟩
    intro r hr hru
    obtain ⟨r0, hr0, rfl⟩ := List.mem_map.mp hr
    by_cases hc : (r0.application_url == some u) = true
    · simp [hc, updateJobRow]
    · exfalso
      apply hc
      have : r0.application_url = some u := by
        by_cases hcc : (r0.application_url == some u) = true
        · exact absurd hcc hc
        · simpa [hcc] using hru
      simp [this]
  · intro j u table nextId m hj hz
    rw [save_jobs_single_insert hj hz]
    dsimp only
    have hpos : 0 < countUrl (table ++ [newJobRow nextId j]) u := by
      rw [countUrl_append, hz]
      simp [countUrl, List.filter, newJobRow, hj]
    rw [save_jobs_single_update hj hpos]
    dsimp only
    constructor
    · rw [countUrl_map (update_map_preserves_url j u), countUrl_append, hz]
      simp [countUrl, List.filter, newJobRow, hj]
    · rfl

/-- C3 witness: the parts of `C3_job_upsert` discharged on a concrete job
with URL `"u1"`, an empty table for the insert/replay cases and a one-row
table for the update case. -/
theorem C3_job_upsert_witness :
    (countUrl (save_jobs [⟨"Dev", "Acme", "c1", "NY", "d", [], "mid", some "u1"⟩,
        ⟨"Dev", "Acme", "c1", "NY", "d", [], "mid", some "u1"⟩] [] 0 {}).1 "u1" ≤ 1) ∧
    (countUrl (save_jobs [⟨"Dev", "Acme", "c1", "NY", "d", [], "mid", some "u1"⟩] [] 0 {}).1
      "u1" = 1) ∧
    ((save_jobs [⟨"Dev", "Acme", "c1", "NY", "d", [], "mid", some "u1"⟩] [] 0 {}).2.2 =
      { jobs_inserted := 1 }) ∧
    ((save_jobs [⟨"Dev", "Acme", "c1", "NY", "d", [], "mid", some "u1"⟩]
        [newJobRow 5 ⟨"Old", "Acme", "c1", "LA", "o", [], "entry", some "u1"⟩] 9 {}).1.length =
      1) ∧
    ((save_jobs [⟨"Dev", "Acme", "c1", "NY", "d", [], "mid", some "u1"⟩]
        [newJobRow 5 ⟨"Old", "Acme", "c1", "LA", "o", [], "entry", some "u1"⟩] 9 {}).2.2 =
      { jobs_updated := 1 }) ∧
    (countUrl (save_jobs [⟨"Dev", "Acme", "c1", "NY", "d", [], "mid", some "u1"⟩]
        (save_jobs [⟨"Dev", "Acme", "c1", "NY", "d", [], "mid", some "u1"⟩] [] 0 {}).1
        (save_jobs [⟨"Dev", "Acme", "c1", "NY", "d", [], "mid", some "u1"⟩] [] 0 {}).2.1
        (save_jobs [⟨"Dev", "Acme", "c1", "NY", "d", [], "mid", some "u1"⟩] [] 0 {}).2.2).1
      "u1" = 1) :=
  ⟨C3_job_upsert.1 _ [] 0 {} (fun u => by simp [countUrl, List.filter]) "u1",
   (C3_job_upsert.2.1 _ "u1" [] 0 {} rfl (by decide)).1,
   (C3_job_upsert.2.1 _ "u1" [] 0 {} rfl (by decide)).2.2,
   (C3_job_upsert.2.2.1 _ "u1" _ 9 {} rfl (by decide)).1,
   (C3_job_upsert.2.2.1 _ "u1" _ 9 {} rfl (by decide)).2.2,
   (C3_job_upsert.2.2.2 _ "u1" [] 0 {} rfl (by decide)).1⟩

/-! ## Claim C4 -/

/-- `countName` is unchanged by maps that preserve `name`. -/
theorem countName_map {table : List CompanyRow} {g : CompanyRow → CompanyRow}
    (hg : ∀ r, (g r).name = r.name) (n : String) :
    countName (table.map g) n = countName table n := by
  unfold countName
  rw [List.filter_map, List.length_map]
  congr 1
  apply List.filter_congr
  intro r _
  simp [Function.comp, hg r]

/-- `countName` adds over table concatenation. -/
theorem countName_append (t1 t2 : List CompanyRow) (n : String) :
    countName (t1 ++ t2) n = countName t1 n + countName t2 n := by
  unfold countName
  rw [List.filter_append, List.length_append]

/-- The conflict branch of the company upsert does not touch `name`. -/
theorem company_update_preserves_name (c : Candidate) :
    ∀ r : CompanyRow,
      ((fun r => if r.name == c.name then updateCompanyRow c r else r) r).name = r.name := by
  intro r
  by_cases hc : (r.name == c.name) = true <;> simp [hc, updateCompanyRow]

/-- One company upsert keeps at most one row per name. -/
theorem upsertCompany_count_le {table : List CompanyRow} {i : Nat} {c : Candidate}
    (h : ∀ n, countName table n ≤ 1) :
    ∀ n, countName (upsertCompanyRow table i c).1 n ≤ 1 := by
  intro n
  unfold upsertCompanyRow
  cases hc : table.any (fun r => r.name == c.name) with
  | true =>
    simp only [if_true]
    rw [countName_map (company_update_preserves_name c)]
    exact h n
  | false =>
    simp only [Bool.false_eq_true, if_false]
    rw [countName_append]
    rw [List.any_eq_false] at hc
    by_cases hn : c.name = n
    · subst hn
      have hz : countName table c.name = 0 := by
        unfold countName
        rw [List.length_eq_zero, List.filter_eq_nil_iff]
        intro r hr
        simpa using hc r hr
      rw [hz]
      simp [countName, List.filter, newCompanyRow]
    · have hxu : (c.name == n) = false := by simp [hn]
      have hz : countName [newCompanyRow i c] n = 0 := by
        simp [countName, List.filter, newCompanyRow, hxu]
      rw [hz]
      simpa using h n

/-- C4: the company upsert is keyed by `name` and never creates a second
row for an existing name (at-most-one-row-per-name is preserved across a
whole discovery batch); on a conflict the table keeps its size and the
stored row is replaced by one whose `domain` is the candidate's domain
unconditionally, whose `careers_url` is kept when the candidate's is null
and replaced when it is non-null, and whose endpoint hint is kept when the
candidate carries no careers URL; in particular upserting a candidate with
a null `careers_url` after one that stored a non-null value leaves the
stored value unchanged. -/
theorem C4_company_upsert :
    (∀ (cs : List Candidate) (table : List CompanyRow) (i : Nat),
      (∀ n, countName table n ≤ 1) →
      ∀ n, countName (upsert_companies table i cs).1 n ≤ 1) ∧
    (∀ (c : Candidate) (table : List CompanyRow) (i : Nat) (r : CompanyRow),
      table.find? (fun r => r.name == c.name) = some r →
      (upsertCompanyRow table i c).1.length = table.length ∧
      (upsertCompanyRow table i c).1.find? (fun r => r.name == c.name) =
        some (updateCompanyRow c r) ∧
      (updateCompanyRow c r).domain = c.domain ∧
      (c.careers_url = none → (updateCompanyRow c r).careers_url = r.careers_url) ∧
      (∀ v, c.careers_url = some v → (updateCompanyRow c r).careers_url = some v) ∧
      (pyTruthy c.careers_url = false →
        (updateCompanyRow c r).careers_endpoint_payload = r.careers_endpoint_payload)) ∧
    (∀ (c1 c2 : Candidate) (table : List CompanyRow) (i1 i2 : Nat) (v : String),
      c2.name = c1.name → c1.careers_url = some v → c2.careers_url = none →
      (table.any fun r => r.name == c1.name) = false →
      ∃ r2, (upsertCompanyRow (upsertCompanyRow table i1 c1).1 i2 c2).1.find?
          (fun r => r.name == c1.name) = some r2 ∧ r2.careers_url = some v) := by
  refine ⟨?_, ?_, ?_⟩
  · intro cs
    induction cs with
    | nil =>
      intro table i h n
      simpa [upsert_companies] using h n
    | cons c rest ih =>
      intro table i h n
      simp only [upsert_companies]
      exact ih _ _ (upsertCompany_count_le h) n
  · intro c table i r hf
    have hpr0 := List.find?_some hf
    have hpr : (r.name == c.name) = true := hpr0
    have hany : (table.any fun r => r.name == c.name) = true := by
      rw [List.any_eq_true]
      exact ⟨r, List.mem_of_find?_eq_some hf, hpr⟩
    have ht : (upsertCompanyRow table i c).1 =
        table.map (fun r => if r.name == c.name then updateCompanyRow c r else r) := by
      simp only [upsertCompanyRow, hany, if_true]
    rw [ht]
    refine ⟨List.length_map _ _, ?_, rfl, ?_, ?_, ?_⟩
    · rw [List.find?_map]
      have hpe : ((fun r : CompanyRow => r.name == c.name) ∘
          (fun r => if r.name == c.name then updateCompanyRow c r else r)) =
          (fun r : CompanyRow => r.name == c.name) := by
        funext r0
        by_cases hcc : (r0.name == c.name) = true <;>
          simp [Function.comp, hcc, updateCompanyRow]
      rw [hpe, hf]
      show some (if r.name == c.name then updateCompanyRow c r else r) = _
      rw [if_pos hpr]
    · intro hnone
      simp [updateCompanyRow, hnone]
    · intro v hv
      simp [updateCompanyRow, hv]
    · intro hfalse
      simp [updateCompanyRow, candidatePayload, hfalse]
  · intro c1 c2 table i1 i2 v hname hv1 hv2 hany
    have h1 : (upsertCompanyRow table i1 c1).1 = table ++ [newCompanyRow i1 c1] := by
      simp only [upsertCompanyRow, hany, Bool.false_eq_true, if_false]
    rw [h1]
    have hany2 : ((table ++ [newCompanyRow i1 c1]).any fun r => r.name == c2.name) = true := by
      rw [List.any_eq_true]
      refine ⟨newCompanyRow i1 c1, List.mem_append_right _ (by simp), ?_⟩
      simp [newCompanyRow, hname]
    have h2 : (upsertCompanyRow (table ++ [newCompanyRow i1 c1]) i2 c2).1 =
        (table ++ [newCompanyRow i1 c1]).map
          (fun r => if r.name == c2.name then updateCompanyRow c2 r else r) := by
      simp only [upsertCompanyRow, hany2, if_true]
    rw [h2, List.find?_map]
    have hpe : ((fun r : CompanyRow => r.name == c1.name) ∘
        (fun r => if r.name == c2.name then updateCompanyRow c2 r else r)) =
        (fun r : CompanyRow => r.name == c1.name) := by
      funext r0
      by_cases hcc : (r0.name == c2.name) = true <;>
        simp [Function.comp, hcc, updateCompanyRow]
    rw [hpe, List.find?_append]
    have hfn : table.find? (fun r => r.name == c1.name) = none := by
      rw [List.find?_eq_none]
      intro r hr
      rw [List.any_eq_false] at hany
      simpa using hany r hr
    have hfn2 : List.find? (fun r : CompanyRow => r.name == c1.name) [newCompanyRow i1 c1] =
        some (newCompanyRow i1 c1) := by
      simp [List.find?, newCompanyRow]
    rw [hfn, Option.none_or, hfn2]
    refine ⟨_, rfl, ?_⟩
    have hcond : ((newCompanyRow i1 c1).name == c2.name) = true := by
      simp [newCompanyRow, hname]
    show (if (newCompanyRow i1 c1).name == c2.name then
        updateCompanyRow c2 (newCompanyRow i1 c1) else newCompanyRow i1 c1).careers_url = some v
    rw [if_pos hcond]
    simp [updateCompanyRow, newCompanyRow, hv1, hv2]


/-- C4 witness: the parts of `C4_company_upsert` discharged on concrete
candidates: "Acme" discovered first with a careers URL, then re-discovered
with null `domain`/`careers_url`. -/
theorem C4_company_upsert_witness :
    (countName (upsert_companies [] 0
        [⟨"Acme", some "acme.com", some "https://acme.com/careers", some "search_engine"⟩]).1
      "Acme" ≤ 1) ∧
    ((upsertCompanyRow
        [newCompanyRow 0 ⟨"Acme", some "acme.com", some "https://acme.com/careers",
          some "search_engine"⟩] 7 ⟨"Acme", none, none, none⟩).1.length = 1) ∧
    ((updateCompanyRow ⟨"Acme", none, none, none⟩
        (newCompanyRow 0 ⟨"Acme", some "acme.com", some "https://acme.com/careers",
          some "search_engine"⟩)).domain = none) ∧
    ((updateCompanyRow ⟨"Acme", none, none, none⟩
        (newCompanyRow 0 ⟨"Acme", some "acme.com", some "https://acme.com/careers",
          some "search_engine"⟩)).careers_url = some "https://acme.com/careers") ∧
    (((upsertCompanyRow (upsertCompanyRow [] 1
          ⟨"Acme", some "acme.com", some "https://acme.com/careers", some "search_engine"⟩).1
        2 ⟨"Acme", none, none, none⟩).1.find? (fun r => r.name == "Acme")).map
      (fun r => r.careers_url) = some (some "https://acme.com/careers")) := by
  refine ⟨?_, ?_, ?_, ?_, ?_⟩
  · exact C4_company_upsert.1 _ [] 0 (fun n => by simp [countName, List.filter]) "Acme"
  · exact (C4_company_upsert.2.1 ⟨"Acme", none, none, none⟩
      [newCompanyRow 0 ⟨"Acme", some "acme.com", some "https://acme.com/careers",
        some "search_engine"⟩] 7
      (newCompanyRow 0 ⟨"Acme", some "acme.com", some "https://acme.com/careers",
        some "search_engine"⟩) rfl).1
  · exact (C4_company_upsert.2.1 ⟨"Acme", none, none, none⟩
      [newCompanyRow 0 ⟨"Acme", some "acme.com", some "https://acme.com/careers",
        some "search_engine"⟩] 7
      (newCompanyRow 0 ⟨"Acme", some "acme.com", some "https://acme.com/careers",
        some "search_engine"⟩) rfl).2.2.1
  · exact ((C4_company_upsert.2.1 ⟨"Acme", none, none, none⟩
      [newCompanyRow 0 ⟨"Acme", some "acme.com", some "https://acme.com/careers",
        some "search_engine"⟩] 7
      (newCompanyRow 0 ⟨"Acme", some "acme.com", some "https://acme.com/careers",
        some "search_engine"⟩) rfl).2.2.2.1 rfl).trans (by decide)
  · obtain ⟨r2, h1, h2⟩ := C4_company_upsert.2.2
      ⟨"Acme", some "acme.com", some "https://acme.com/careers", some "search_engine"⟩
      ⟨"Acme", none, none, none⟩ [] 1 2 "https://acme.com/careers" rfl rfl rfl (by decide)
    rw [h1]
    simp [h2]

/-! ## Claims C2 and C7 -/

/-- C2: the claim is NOT exclusive.  `claim_next_run` issues its SELECT
(`FOR UPDATE SKIP LOCKED`) and its UPDATE as two separate pooled statements
with no enclosing transaction, so the row lock is released when the SELECT
statement's implicit transaction commits, and the UPDATE carries no
`status='queued'` guard.  In the reachable interleaving where both workers
run their SELECT before either UPDATE, both attempts return the same run:
with one queued run (id 1), worker 1 and worker 2 both obtain `some 1` —
contradicting "exactly one attempt succeeds and every other attempt
observes no claimable work".  (The atomic-claim behaviour `claim_next_run`
does pick the oldest queued run and does return `none` when no queued row
exists, shown on concrete states in the last two conjuncts.) -/
theorem C2_claim_not_exclusive :
    ((interleaved_claims { runs := [{ id := 1, status := .queued, started_at := 0 }] } 10 11).1
        = some 1) ∧
    ((interleaved_claims { runs := [{ id := 1, status := .queued, started_at := 0 }] } 10 11).2.1
        = some 1) ∧
    (runStatus (interleaved_claims { runs := [{ id := 1, status := .queued, started_at := 0 }] }
        10 11).2.2 1 = some .running) ∧
    ((claim_next_run { runs := [{ id := 1, status := .queued, started_at := 7 },
        { id := 2, status := .queued, started_at := 3 },
        { id := 3, status := .running, started_at := 1 }] } 10).1 = some 2) ∧
    ((claim_next_run { runs := [{ id := 3, status := .running, started_at := 1 },
        { id := 4, status := .success, started_at := 2 }] } 10).1 = none) := by
  exact ⟨rfl, rfl, rfl, rfl, rfl⟩

/-- C7: a terminal run can move back to `running`.  In the reachable
interleaving where worker 1 runs its claim SELECT, then worker 2 claims the
same run and drives the whole pipeline to `success`, and only then worker 1
executes its unguarded claim UPDATE, the run transitions
`success → running` — contradicting "no operation ever moves a run from a
terminal status back to running or queued".  The first conjunct checks that
worker 2's path alone ends in `success`. -/
theorem C7_terminal_status_reverts :
    (runStatus (run_pipeline ⟨.ok [], fun _ => [], .ok ()⟩ 1
        (claimUpdate { runs := [{ id := 1, status := .queued, started_at := 0 }] } 1 5)) 1 =
      some .success) ∧
    (runStatus (stale_claim_trace { runs := [{ id := 1, status := .queued, started_at := 0 }] }
        ⟨.ok [], fun _ => [], .ok ()⟩ 9 5) 1 = some .running) := by
  exact ⟨rfl, rfl⟩

/-! ## Claim C6 -/

/-- The per-company loop never touches the `scraping_runs` table. -/
theorem scrape_loop_runs (scrape : Company → List ScrapedJob) :
    ∀ (companies : List Company) (db : DB) (m : RunMetrics),
      (scrape_loop scrape companies db m).1.runs = db.runs := by
  intro companies
  induction companies with
  | nil => intro db m; rfl
  | cons c rest ih =>
    intro db m
    simp only [scrape_loop]
    cases h : (scrape c).isEmpty with
    | true => simp only [if_true]; exact ih _ _
    | false => simp only [Bool.false_eq_true, if_false]; exact ih _ _

/-- A successful pipeline body leaves the runs table unchanged. -/
theorem pipeline_body_ok_runs {env : PipelineEnv} {db : DB} {m : RunMetrics} {db1 : DB}
    (h : pipeline_body env db = .ok (m, db1)) : db1.runs = db.runs := by
  unfold pipeline_body at h
  cases hd : env.discovered with
  | error e2 => rw [hd] at h; exact absurd h (by simp)
  | ok disc =>
    rw [hd] at h
    dsimp only at h
    cases hc : env.closeResult with
    | error e2 => rw [hc] at h; exact absurd h (by simp)
    | ok u =>
      rw [hc] at h
      have h2 := (Except.ok.injEq _ _).mp h
      have hdb : db1 = (scrape_loop env.scrape (load_active_companies
          { db with
            companies := (upsert_companies db.companies db.next_company_id disc).1,
            next_company_id := (upsert_companies db.companies db.next_company_id disc).2 })
          { db with
            companies := (upsert_companies db.companies db.next_company_id disc).1,
            next_company_id := (upsert_companies db.companies db.next_company_id disc).2 }
          { companies_discovered := disc.length,
            companies_with_careers := (disc.filter (fun c => pyTruthy c.careers_url)).length,
            companies_scraped := 0 }).1 := (congrArg Prod.snd h2).symm
    
      rw [hdb, scrape_loop_runs]

/-- A failing pipeline body leaves the runs table unchanged. -/
theorem pipeline_body_error_runs {env : PipelineEnv} {db : DB} {e : String}
    {m : RunMetrics} {db1 : DB}
    (h : pipeline_body env db = .error (e, m, db1)) : db1.runs = db.runs := by
  unfold pipeline_body at h
  cases hd : env.discovered with
  | error e2 =>
    rw [hd] at h
    have h2 := (Except.error.injEq _ _).mp h
    have hdb : db = db1 := congrArg (fun p => p.2.2) h2
    rw [← hdb]
  | ok disc =>
    rw [hd] at h
    dsimp only at h
    cases hc : env.closeResult with
    | ok u => rw [hc] at h; exact absurd h (by simp)
    | error e2 =>
      rw [hc] at h
      have h2 := (Except.error.injEq _ _).mp h
      have hdb := congrArg (fun p => p.2.2) h2
      dsimp only at hdb
      rw [← hdb, scrape_loop_runs]


/-- Finding a run by id commutes with id-preserving row maps. -/
theorem find?_id_map (runs : List RunRow) (runId : Nat) (f : RunRow → RunRow)
    (hf : ∀ r, (f r).id = r.id) :
    (runs.map f).find? (fun r => r.id == runId) =
      (runs.find? (fun r => r.id == runId)).map f := by
  rw [List.find?_map]
  have hpe : ((fun r : RunRow => r.id == runId) ∘ f) = (fun r : RunRow => r.id == runId) := by
    funext r0
    simp [Function.comp, hf r0]
  rw [hpe]

/-- When the body fails, `run_pipeline` writes exactly one terminal update:
status failed, details carrying the accumulated metrics with the error
message appended. -/
theorem run_pipeline_failed_status {env : PipelineEnv} {db : DB} {runId : Nat}
    {e : String} {m : RunMetrics} {db1 : DB} {r : RunRow}
    (hb : pipeline_body env db = .error (e, m, db1))
    (hfind : db.runs.find? (fun r => r.id == runId) = some r) :
    runStatus (run_pipeline env runId db) runId = some .failed ∧
    runDetails (run_pipeline env runId db) runId =
      some { m with errors := m.errors ++ [e] } := by
  have hpr0 := List.find?_some hfind
  have hpr : (r.id == runId) = true := hpr0
  unfold run_pipeline
  rw [hb]
  dsimp only
  unfold runStatus runDetails
  dsimp only
  rw [find?_id_map _ _ _ (fun r0 => by
    by_cases hc : (r0.id == runId) = true <;> simp [hc])]
  rw [pipeline_body_error_runs hb, hfind]
  constructor
  · show some (if r.id == runId then _ else r).status = some .failed
    rw [if_pos hpr]
  · show (if r.id == runId then _ else r).details = _
    rw [if_pos hpr]

/-- `run_pipeline` always leaves the targeted run in a terminal status. -/
theorem run_pipeline_terminal {env : PipelineEnv} {db : DB} {runId : Nat} {r : RunRow}
    (hfind : db.runs.find? (fun r => r.id == runId) = some r) :
    runStatus (run_pipeline env runId db) runId = some .success ∨
    runStatus (run_pipeline env runId db) runId = some .failed := by
  have hpr0 := List.find?_some hfind
  have hpr : (r.id == runId) = true := hpr0
  cases hb : pipeline_body env db with
  | ok res =>
    left
    obtain ⟨m, db1⟩ := res
    unfold run_pipeline
    rw [hb]
    dsimp only
    unfold runStatus
    dsimp only
    rw [find?_id_map _ _ _ (fun r0 => by
      by_cases hc : (r0.id == runId) = true <;> simp [hc])]
    rw [pipeline_body_ok_runs hb, hfind]
    show some (if r.id == runId then _ else r).status = some .success
    rw [if_pos hpr]
  | error res =>
    obtain ⟨e, m, db1⟩ := res
    exact Or.inr (run_pipeline_failed_status hb hfind).1

/-- The oldest-row fold returns one of its candidates. -/
theorem foldl_oldest_mem (rest : List RunRow) :
    ∀ (r : RunRow),
      rest.foldl (fun best r2 => if r2.started_at < best.started_at then r2 else best) r
        ∈ r :: rest := by
  induction rest with
  | nil => intro r; exact List.mem_singleton.mpr rfl
  | cons a t ih =>
    intro r
    simp only [List.foldl_cons]
    by_cases hc : a.started_at < r.started_at
    · rw [if_pos hc]
      rcases List.mem_cons.mp (ih a) with h | h
      · rw [h]
        exact List.mem_cons_of_mem _ (List.mem_cons_self _ _)
      · exact List.mem_cons_of_mem _ (List.mem_cons_of_mem _ h)
    · rw [if_neg hc]
      rcases List.mem_cons.mp (ih r) with h | h
      · rw [h]
        exact List.mem_cons_self _ _
      · exact List.mem_cons_of_mem _ (List.mem_cons_of_mem _ h)

/-- A claimed id belongs to some run row. -/
theorem claimSelect_mem {runs : List RunRow} {i : Nat} (h : claimSelect runs = some i) :
    ∃ r ∈ runs, r.id = i := by
  unfold claimSelect at h
  cases hq : runs.filter (fun r => r.status == RunStatus.queued) with
  | nil => rw [hq] at h; exact absurd h (by simp)
  | cons r rest =>
    rw [hq] at h
    have hi := (Option.some.injEq _ _).mp h
    have hm := foldl_oldest_mem rest r
    rw [← hq] at hm
    exact ⟨_, List.mem_of_mem_filter hm, hi⟩


/-- C6: for any run whose pipeline body raises (here: any environment whose
discovery or shutdown step yields an error), the coordinator writes the
terminal update `status=failed` with the captured message appended to the
accumulated metrics recorded in `details`; and the failure is never fatal
to the process: one `background_worker` iteration is a total function that
leaves any run it claims in a terminal status, so the loop reaches its
sleep and keeps polling — in particular it can claim and finish the next
queued run right after a failed one, as the witness shows. -/
theorem C6_pipeline_failure :
    (∀ (env : PipelineEnv) (db : DB) (runId : Nat) (e : String) (m : RunMetrics)
        (db1 : DB) (r : RunRow),
      pipeline_body env db = .error (e, m, db1) →
      db.runs.find? (fun r => r.id == runId) = some r →
      runStatus (run_pipeline env runId db) runId = some .failed ∧
      runDetails (run_pipeline env runId db) runId =
        some { m with errors := m.errors ++ [e] }) ∧
    (∀ (env : PipelineEnv) (db : DB) (now i : Nat),
      claimSelect db.runs = some i →
      runStatus (worker_step env db now) i = some .success ∨
      runStatus (worker_step env db now) i = some .failed) := by
  constructor
  · intro env db runId e m db1 r hb hfind
    exact run_pipeline_failed_status hb hfind
  · intro env db now i hsel
    unfold worker_step claim_next_run
    rw [hsel]
    dsimp only
    obtain ⟨r0, hr0, hid⟩ := claimSelect_mem hsel
    cases hf : db.runs.find? (fun r => r.id == i) with
    | none =>
      exfalso
      rw [List.find?_eq_none] at hf
      exact (hf r0 hr0) (by simp [hid])
    | some r1 =>
      have hfind2 : (claimUpdate db i now).runs.find? (fun r => r.id == i) =
          some (if r1.id == i then { r1 with status := .running, started_at := now }
                else r1) := by
        unfold claimUpdate
        dsimp only
        rw [find?_id_map _ _ _ (fun r2 => by
          by_cases hc : (r2.id == i) = true <;> simp [hc])]
        rw [hf]
        rfl
      exact run_pipeline_terminal hfind2

/-- C6 witness: discovery raising "db down" on a store with queued runs 1
and 2: run 1 is failed with the message in `details`, and the next worker
iteration still claims and terminates run 2. -/
theorem C6_pipeline_failure_witness :
    (runStatus (run_pipeline ⟨.error "db down", fun _ => [], .ok ()⟩ 1
        { runs := [{ id := 1, status := .queued, started_at := 0 },
                   { id := 2, status := .queued, started_at := 1 }] }) 1 = some .failed) ∧
    (runDetails (run_pipeline ⟨.error "db down", fun _ => [], .ok ()⟩ 1
        { runs := [{ id := 1, status := .queued, started_at := 0 },
                   { id := 2, status := .queued, started_at := 1 }] }) 1 =
      some { errors := ["db down"] }) ∧
    (runStatus (worker_step ⟨.ok [], fun _ => [], .ok ()⟩
        (worker_step ⟨.error "db down", fun _ => [], .ok ()⟩
          { runs := [{ id := 1, status := .queued, started_at := 0 },
                     { id := 2, status := .queued, started_at := 1 }] } 5) 6) 2 =
        some .success ∨
     runStatus (worker_step ⟨.ok [], fun _ => [], .ok ()⟩
        (worker_step ⟨.error "db down", fun _ => [], .ok ()⟩
          { runs := [{ id := 1, status := .queued, started_at := 0 },
                     { id := 2, status := .queued, started_at := 1 }] } 5) 6) 2 =
        some .failed) := by
  refine ⟨?_, ?_, ?_⟩
  · exact (C6_pipeline_failure.1 ⟨.error "db down", fun _ => [], .ok ()⟩
      { runs := [{ id := 1, status := .queued, started_at := 0 },
                 { id := 2, status := .queued, started_at := 1 }] }
      1 "db down" {}
      { runs := [{ id := 1, status := .queued, started_at := 0 },
                 { id := 2, status := .queued, started_at := 1 }] }
      { id := 1, status := .queued, started_at := 0 } rfl rfl).1
  · exact (C6_pipeline_failure.1 ⟨.error "db down", fun _ => [], .ok ()⟩
      { runs := [{ id := 1, status := .queued, started_at := 0 },
                 { id := 2, status := .queued, started_at := 1 }] }
      1 "db down" {}
      { runs := [{ id := 1, status := .queued, started_at := 0 },
                 { id := 2, status := .queued, started_at := 1 }] }
      { id := 1, status := .queued, started_at := 0 } rfl rfl).2
  · exact C6_pipeline_failure.2 ⟨.ok [], fun _ => [], .ok ()⟩
      (worker_step ⟨.error "db down", fun _ => [], .ok ()⟩
        { runs := [{ id := 1, status := .queued, started_at := 0 },
                   { id := 2, status := .queued, started_at := 1 }] } 5) 6 2 rfl

/-! ## Claim C9 -/

/-- Python `or` cannot produce `None` when its right operand is not `None`. -/
theorem pyOr_ne_none {a b : Option String} (hb : b ≠ none) : pyOr a b ≠ none := by
  unfold pyOr
  cases ha : pyTruthy a with
  | true =>
    cases a with
    | none => simp [pyTruthy] at ha
    | some s => simp
  | false => simpa using hb

/-- Python `or` returns its right operand when the left is falsy. -/
theorem pyOr_falsy {a b : Option String} (ha : pyTruthy a = false) : pyOr a b = b := by
  simp [pyOr, ha]

/-- `dropWhile` returns `[]` when everything it keeps satisfies the predicate. -/
theorem dropWhile_all {p : Char → Bool} :
    ∀ l : List Char, (∀ x ∈ l.dropWhile p, p x = true) → l.dropWhile p = []
  | [], _ => rfl
  | c :: t, h => by
    by_cases hc : p c = true
    · rw [List.dropWhile_cons_of_pos hc] at h ⊢
      exact dropWhile_all t h
    · rw [List.dropWhile_cons_of_neg hc] at h
      exact absurd (h c (List.mem_cons_self _ _)) hc

/-- A string that strips to empty consists of whitespace only. -/
theorem pyStrip_eq_empty {s : String} (h : pyStrip s = "") :
    s.toList.all isPySpace = true := by
  have hl : stripChars s.toList = [] := congrArg String.toList h
  unfold stripChars at hl
  rw [List.reverse_eq_nil_iff] at hl
  have h2 := List.dropWhile_eq_nil_iff.mp hl
  have h3 : ∀ x ∈ s.toList.dropWhile isPySpace, isPySpace x = true := by
    intro x hx
    exact h2 x (List.mem_reverse.mpr hx)
  have h4 := dropWhile_all _ h3
  rw [List.all_eq_true]
  exact List.dropWhile_eq_nil_iff.mp h4

/-- C9 counterexample: the Scrape Adapter CAN produce a `ScrapedJob` with
an empty title.  A whitespace-only raw title (`" "`) is truthy in Python,
so it passes the `if not title` guard, and the subsequent `.strip()` leaves
`""` — refuting "every ScrapedJob produced by the Scrape Adapter has a
non-empty title". -/
theorem C9_empty_title_counterexample :
    ((parse_api_job { title := some " " }
        ⟨"c1", "Acme", none, some "https://acme.com/api/jobs.json", none, none⟩).map
      (fun j => j.title)) = some "" := by decide

/-- C9 (amended): every `ScrapedJob` the adapter produces (API or page
mode, under the `scrape_company` guard that `careers_url` is truthy) has a
non-null `application_url`, which falls back to the company's `careers_url`
when the item or element provides no (truthy) apply URL — so distinct
postings in one batch can share the careers URL as their persistence key,
as the last conjunct shows concretely; titles are non-empty only up to
trimming: an empty stored title can arise, exactly from a non-empty
whitespace-only raw title. -/
theorem C9_application_url :
    (∀ (item : ApiItem) (c : Company) (u : String) (j : ScrapedJob),
      c.careers_url = some u → u ≠ "" →
      parse_api_job item c = some j →
      j.application_url ≠ none ∧
      (pyTruthy item.apply_url = false → pyTruthy item.url = false →
        pyTruthy item.link = false → j.application_url = some u)) ∧
    (∀ (el : WebElement) (c : Company) (u : String) (mapping : List (String × String))
        (j : ScrapedJob),
      c.careers_url = some u → u ≠ "" →
      parse_web_element c mapping el = some j →
      j.application_url ≠ none ∧
      (el.app_url = none → j.application_url = some u)) ∧
    (∀ (item : ApiItem) (c : Company) (j : ScrapedJob),
      parse_api_job item c = some j → j.title = "" →
      ∃ t, pyOr item.title (pyOr item.name item.position) = some t ∧ t ≠ "" ∧
        t.toList.all isPySpace = true) ∧
    ((scrape_api_items [{ title := some "Dev" }, { title := some "QA" }]
        ⟨"c1", "Acme", none, some "https://acme.com/api/jobs.json", none, none⟩).map
      (fun j => j.application_url) =
      [some "https://acme.com/api/jobs.json", some "https://acme.com/api/jobs.json"]) := by
  refine ⟨?_, ?_, ?_, by decide⟩
  · intro item c u j hc hu hp
    unfold parse_api_job at hp
    dsimp only at hp
    cases ht : pyTruthy (pyOr item.title (pyOr item.name item.position)) with
    | false => rw [ht] at hp; simp at hp
    | true =>
      rw [ht] at hp
      simp only [if_true] at hp
      have hj := (Option.some.injEq _ _).mp hp
      subst hj
      constructor
      · show pyOr item.apply_url (pyOr item.url (pyOr item.link c.careers_url)) ≠ none
        apply pyOr_ne_none
        apply pyOr_ne_none
        apply pyOr_ne_none
        rw [hc]
        exact Option.some_ne_none u
      · intro h1 h2 h3
        show pyOr item.apply_url (pyOr item.url (pyOr item.link c.careers_url)) = some u
        rw [pyOr_falsy h1, pyOr_falsy h2, pyOr_falsy h3, hc]
  · intro el c u mapping j hc hu hp
    unfold parse_web_element at hp
    dsimp only at hp
    cases ht : (el.title == "") with
    | true => rw [ht] at hp; simp at hp
    | false =>
      rw [ht] at hp
      simp only [Bool.false_eq_true, if_false] at hp
      have hj := (Option.some.injEq _ _).mp hp
      subst hj
      constructor
      · show pyOr el.app_url c.careers_url ≠ none
        apply pyOr_ne_none
        rw [hc]
        exact Option.some_ne_none u
      · intro h1
        show pyOr el.app_url c.careers_url = some u
        rw [h1, hc]
        rfl
  · intro item c j hp htitle
    unfold parse_api_job at hp
    dsimp only at hp
    cases ht : pyTruthy (pyOr item.title (pyOr item.name item.position)) with
    | false => rw [ht] at hp; simp at hp
    | true =>
      rw [ht] at hp
      simp only [if_true] at hp
      have hj := (Option.some.injEq _ _).mp hp
      cases hopt : pyOr item.title (pyOr item.name item.position) with
      | none => rw [hopt] at ht; simp [pyTruthy] at ht
      | some t =>
        refine ⟨t, rfl, ?_, ?_⟩
        · rw [hopt] at ht
          simp [pyTruthy] at ht
          intro he
          rw [he] at ht
          simp at ht
        · apply pyStrip_eq_empty
          have : j.title = pyStrip ((pyOr item.title (pyOr item.name item.position)).getD "") := by
            rw [← hj]
          rw [htitle, hopt] at this
          exact this.symm


/-- C9 witness: both adapter modes discharged on concrete companies whose
items/elements carry no apply URL: the stored `application_url` is the
careers URL. -/
theorem C9_application_url_witness :
    ((parse_api_job { title := some "Dev" }
        ⟨"c1", "Acme", none, some "https://acme.com/api/jobs.json", none, none⟩).map
      (fun j => j.application_url)) = some (some "https://acme.com/api/jobs.json") ∧
    ((parse_web_element ⟨"c2", "Beta", none, some "https://beta.io/careers", none, none⟩
        defaultExperienceLevelMapping { title := "QA" }).map
      (fun j => j.application_url)) = some (some "https://beta.io/careers") := by
  constructor
  · cases hp : parse_api_job { title := some "Dev" }
        ⟨"c1", "Acme", none, some "https://acme.com/api/jobs.json", none, none⟩ with
    | none => exact absurd hp (by decide)
    | some j =>
      have h := (C9_application_url.1 { title := some "Dev" }
        ⟨"c1", "Acme", none, some "https://acme.com/api/jobs.json", none, none⟩
        "https://acme.com/api/jobs.json" j rfl (by decide) hp).2 rfl rfl rfl
      simp [h]
  · cases hp : parse_web_element ⟨"c2", "Beta", none, some "https://beta.io/careers", none, none⟩
        defaultExperienceLevelMapping { title := "QA" } with
    | none => exact absurd hp (by decide)
    | some j =>
      have h := (C9_application_url.2.1 { title := "QA" }
        ⟨"c2", "Beta", none, some "https://beta.io/careers", none, none⟩
        "https://beta.io/careers" defaultExperienceLevelMapping j rfl (by decide) hp).2 rfl
      simp [h]

/-! ## Claim C10 -/

/-- Deduplication never lengthens a batch. -/
theorem dedupAux_length_le (jobs : List ScrapedJob) :
    ∀ seen, (dedupAux seen jobs).length ≤ jobs.length := by
  induction jobs with
  | nil => intro seen; exact Nat.le_refl 0
  | cons j rest ih =>
    intro seen
    simp only [dedupAux]
    by_cases hc : job_key j ∈ seen
    · rw [if_pos hc]
      exact Nat.le_succ_of_le (ih seen)
    · rw [if_neg hc]
      simpa using Nat.succ_le_succ (ih (job_key j :: seen))

/-- `deduplicate` never lengthens a batch. -/
theorem deduplicate_length_le (jobs : List ScrapedJob) :
    (deduplicate jobs).length ≤ jobs.length := dedupAux_length_le jobs []

/-- `save_jobs` increments exactly one of `jobs_inserted`/`jobs_updated`
per job persisted (their sum grows by the batch length) and touches no
other counter. -/
theorem save_jobs_metrics (jobs : List ScrapedJob) :
    ∀ (t : List JobRow) (n : Nat) (m : RunMetrics),
      ((save_jobs jobs t n m).2.2.jobs_inserted + (save_jobs jobs t n m).2.2.jobs_updated =
        m.jobs_inserted + m.jobs_updated + jobs.length) ∧
      ((save_jobs jobs t n m).2.2.companies_scraped = m.companies_scraped) ∧
      ((save_jobs jobs t n m).2.2.jobs_scraped = m.jobs_scraped) := by
  induction jobs with
  | nil =>
    intro t n m
    exact ⟨by simp [save_jobs], rfl, rfl⟩
  | cons j rest ih =>
    intro t n m
    simp only [save_jobs]
    cases hres : (upsertJobRow t n j).2.2 with
    | true =>
      simp only [hres, if_true]
      obtain ⟨ih1, ih2, ih3⟩ := ih (upsertJobRow t n j).1 (upsertJobRow t n j).2.1
        { m with jobs_inserted := m.jobs_inserted + 1 }
      refine ⟨?_, ih2, ih3⟩
      rw [ih1]
      simp only [List.length_cons]
      omega
    | false =>
      simp only [hres, Bool.false_eq_true, if_false]
      obtain ⟨ih1, ih2, ih3⟩ := ih (upsertJobRow t n j).1 (upsertJobRow t n j).2.1
        { m with jobs_updated := m.jobs_updated + 1 }
      refine ⟨?_, ih2, ih3⟩
      rw [ih1]
      simp only [List.length_cons]
      omega

/-- `invalidate_missing` only ever touches `jobs_marked_unavailable`. -/
theorem invalidate_missing_metrics (t : List JobRow) (cid : String)
    (urls : List (Option String)) (m : RunMetrics) :
    ((invalidate_missing t cid urls m).2.companies_scraped = m.companies_scraped) ∧
    ((invalidate_missing t cid urls m).2.jobs_scraped = m.jobs_scraped) ∧
    ((invalidate_missing t cid urls m).2.jobs_inserted = m.jobs_inserted) ∧
    ((invalidate_missing t cid urls m).2.jobs_updated = m.jobs_updated) := by
  unfold invalidate_missing
  dsimp only
  split
  · exact ⟨rfl, rfl, rfl, rfl⟩
  · split
    · exact ⟨rfl, rfl, rfl, rfl⟩
    · exact ⟨rfl, rfl, rfl, rfl⟩


/-- Counter bookkeeping of the per-company loop: `companies_scraped`
counts companies whose scrape was non-empty, `jobs_scraped` adds the raw
batch sizes, and the inserted/updated sum adds the deduplicated batch
sizes. -/
theorem scrape_loop_metrics (scrape : Company → List ScrapedJob) :
    ∀ (companies : List Company) (db : DB) (m : RunMetrics),
      ((scrape_loop scrape companies db m).2.companies_scraped =
        m.companies_scraped + (companies.filter (fun c => !(scrape c).isEmpty)).length) ∧
      ((scrape_loop scrape companies db m).2.jobs_scraped =
        m.jobs_scraped + (companies.map (fun c => (scrape c).length)).sum) ∧
      ((scrape_loop scrape companies db m).2.jobs_inserted +
          (scrape_loop scrape companies db m).2.jobs_updated =
        m.jobs_inserted + m.jobs_updated +
          (companies.map (fun c => (deduplicate (scrape c)).length)).sum) := by
  intro companies
  induction companies with
  | nil =>
    intro db m
    exact ⟨by simp [scrape_loop], by simp [scrape_loop], by simp [scrape_loop]⟩
  | cons c rest ih =>
    intro db m
    simp only [scrape_loop]
    cases hjc : (scrape c).isEmpty with
    | true =>
      simp only [if_true]
      obtain ⟨ih1, ih2, ih3⟩ := ih db m
      rw [List.isEmpty_iff] at hjc
      refine ⟨?_, ?_, ?_⟩
      · rw [ih1]
        have : (List.filter (fun c => !(scrape c).isEmpty) (c :: rest)) =
            List.filter (fun c => !(scrape c).isEmpty) rest := by
          simp [List.filter_cons, hjc]
        rw [this]
      · rw [ih2]
        simp [hjc]
      · rw [ih3]
        simp [hjc, deduplicate, dedupAux]
    | false =>
      simp only [Bool.false_eq_true, if_false]
      set m1 : RunMetrics := { m with
        companies_scraped := m.companies_scraped + 1
        jobs_scraped := m.jobs_scraped + (scrape c).length } with hm1
      set saved := save_jobs (deduplicate (scrape c)) db.jobs db.next_job_id m1 with hsaved
      set inv := invalidate_missing saved.1 c.id
        ((deduplicate (scrape c)).map (fun j => j.application_url)) saved.2.2 with hinv
      obtain ⟨ih1, ih2, ih3⟩ := ih { db with jobs := inv.1, next_job_id := saved.2.1 } inv.2
      obtain ⟨iv1, iv2, iv3, iv4⟩ := invalidate_missing_metrics saved.1 c.id
        ((deduplicate (scrape c)).map (fun j => j.application_url)) saved.2.2
      obtain ⟨sv1, sv2, sv3⟩ := save_jobs_metrics (deduplicate (scrape c)) db.jobs
        db.next_job_id m1
      rw [← hsaved] at sv1 sv2 sv3
      rw [← hinv] at iv1 iv2 iv3 iv4
      refine ⟨?_, ?_, ?_⟩
      · rw [ih1, iv1, sv2]
        have : (List.filter (fun c => !(scrape c).isEmpty) (c :: rest)) =
            c :: List.filter (fun c => !(scrape c).isEmpty) rest := by
          simp [List.filter_cons, hjc]
        rw [this]
        simp only [List.length_cons, hm1]
        omega
      · rw [ih2, iv2, sv3]
        simp only [List.map_cons, List.sum_cons, hm1]
        omega
      · rw [ih3, iv3, iv4, sv1]
        simp only [List.map_cons, List.sum_cons, hm1]
        omega


/-- A loop over companies that all scrape to zero jobs changes neither the
database nor the metrics. -/
theorem scrape_loop_noop (scrape : Company → List ScrapedJob) :
    ∀ (companies : List Company) (db : DB) (m : RunMetrics),
      (∀ c ∈ companies, scrape c = []) → scrape_loop scrape companies db m = (db, m) := by
  intro companies
  induction companies with
  | nil => intro db m _; rfl
  | cons c rest ih =>
    intro db m hall
    simp only [scrape_loop]
    have hc : (scrape c).isEmpty = true := by
      rw [hall c (List.mem_cons_self _ _)]
      rfl
    rw [hc]
    simp only [if_true]
    exact ih db m (fun c2 hc2 => hall c2 (List.mem_cons_of_mem _ hc2))

/-- C10: for every run's per-company loop, `companies_scraped` counts only
companies whose scrape returned at least one job; a company returning zero
jobs increments nothing and triggers neither persistence nor invalidation
(an all-empty loop leaves the database and metrics untouched);
`jobs_scraped` counts jobs before in-batch deduplication;
`jobs_inserted + jobs_updated` equals the number of deduplicated jobs
persisted; hence, from the zero-initialized metrics `run_pipeline` starts
with, `jobs_inserted + jobs_updated ≤ jobs_scraped`. -/
theorem C10_run_metrics :
    ∀ (scrape : Company → List ScrapedJob) (companies : List Company) (db : DB)
      (m : RunMetrics),
      ((scrape_loop scrape companies db m).2.companies_scraped =
        m.companies_scraped + (companies.filter (fun c => !(scrape c).isEmpty)).length) ∧
      ((scrape_loop scrape companies db m).2.jobs_scraped =
        m.jobs_scraped + (companies.map (fun c => (scrape c).length)).sum) ∧
      ((scrape_loop scrape companies db m).2.jobs_inserted +
          (scrape_loop scrape companies db m).2.jobs_updated =
        m.jobs_inserted + m.jobs_updated +
          (companies.map (fun c => (deduplicate (scrape c)).length)).sum) ∧
      ((∀ c ∈ companies, scrape c = []) → scrape_loop scrape companies db m = (db, m)) ∧
      (m.jobs_inserted = 0 → m.jobs_updated = 0 → m.jobs_scraped = 0 →
        (scrape_loop scrape companies db m).2.jobs_inserted +
            (scrape_loop scrape companies db m).2.jobs_updated ≤
          (scrape_loop scrape companies db m).2.jobs_scraped) := by
  intro scrape companies db m
  obtain ⟨h1, h2, h3⟩ := scrape_loop_metrics scrape companies db m
  refine ⟨h1, h2, h3, scrape_loop_noop scrape companies db m, ?_⟩
  intro hz1 hz2 hz3
  have hle : (companies.map (fun c => (deduplicate (scrape c)).length)).sum ≤
      (companies.map (fun c => (scrape c).length)).sum :=
    List.sum_le_sum (fun c _ => deduplicate_length_le (scrape c))
  rw [h3, h2, hz1, hz2, hz3]
  omega

/-- C10 witness: a company scraping two jobs that deduplicate to one, next
to a company scraping nothing: `companies_scraped = 1`, `jobs_scraped = 2`,
`jobs_inserted + jobs_updated = 1 ≤ 2`, and the all-empty loop is the
identity. -/
theorem C10_run_metrics_witness :
    ((scrape_loop (fun _ => []) [⟨"1", "Acme", none, none, none, none⟩] {} {}) = ({}, {})) ∧
    ((scrape_loop (fun c => if c.id == "1" then
        [⟨"Dev", "Acme", "1", "NY", "d1", [], "mid", some "u1"⟩,
         ⟨"Dev", "Acme", "1", "NY", "d2", [], "mid", some "u2"⟩] else [])
      [⟨"1", "Acme", none, none, none, none⟩, ⟨"2", "Beta", none, none, none, none⟩]
      {} {}).2.companies_scraped = 1) ∧
    ((scrape_loop (fun c => if c.id == "1" then
        [⟨"Dev", "Acme", "1", "NY", "d1", [], "mid", some "u1"⟩,
         ⟨"Dev", "Acme", "1", "NY", "d2", [], "mid", some "u2"⟩] else [])
      [⟨"1", "Acme", none, none, none, none⟩, ⟨"2", "Beta", none, none, none, none⟩]
      {} {}).2.jobs_scraped = 2) ∧
    ((scrape_loop (fun c => if c.id == "1" then
        [⟨"Dev", "Acme", "1", "NY", "d1", [], "mid", some "u1"⟩,
         ⟨"Dev", "Acme", "1", "NY", "d2", [], "mid", some "u2"⟩] else [])
      [⟨"1", "Acme", none, none, none, none⟩, ⟨"2", "Beta", none, none, none, none⟩]
      {} {}).2.jobs_inserted +
     (scrape_loop (fun c => if c.id == "1" then
        [⟨"Dev", "Acme", "1", "NY", "d1", [], "mid", some "u1"⟩,
         ⟨"Dev", "Acme", "1", "NY", "d2", [], "mid", some "u2"⟩] else [])
      [⟨"1", "Acme", none, none, none, none⟩, ⟨"2", "Beta", none, none, none, none⟩]
      {} {}).2.jobs_updated = 1) ∧
    ((scrape_loop (fun c => if c.id == "1" then
        [⟨"Dev", "Acme", "1", "NY", "d1", [], "mid", some "u1"⟩,
         ⟨"Dev", "Acme", "1", "NY", "d2", [], "mid", some "u2"⟩] else [])
      [⟨"1", "Acme", none, none, none, none⟩, ⟨"2", "Beta", none, none, none, none⟩]
      {} {}).2.jobs_inserted +
     (scrape_loop (fun c => if c.id == "1" then
        [⟨"Dev", "Acme", "1", "NY", "d1", [], "mid", some "u1"⟩,
         ⟨"Dev", "Acme", "1", "NY", "d2", [], "mid", some "u2"⟩] else [])
      [⟨"1", "Acme", none, none, none, none⟩, ⟨"2", "Beta", none, none, none, none⟩]
      {} {}).2.jobs_updated ≤
     (scrape_loop (fun c => if c.id == "1" then
        [⟨"Dev", "Acme", "1", "NY", "d1", [], "mid", some "u1"⟩,
         ⟨"Dev", "Acme", "1", "NY", "d2", [], "mid", some "u2"⟩] else [])
      [⟨"1", "Acme", none, none, none, none⟩, ⟨"2", "Beta", none, none, none, none⟩]
      {} {}).2.jobs_scraped) := by
  refine ⟨?_, ?_, ?_, ?_, ?_⟩
  · exact (C10_run_metrics (fun _ => []) [⟨"1", "Acme", none, none, none, none⟩] {} {}).2.2.2.1
      (fun c _ => rfl)
  · rw [(C10_run_metrics _ _ {} {}).1]
    decide
  · rw [(C10_run_metrics _ _ {} {}).2.1]
    decide
  · rw [(C10_run_metrics _ _ {} {}).2.2.1]
    decide
  · exact (C10_run_metrics _ _ {} {}).2.2.2.2 rfl rfl rfl

end JobGPT
